import Mathlib

/-!
A verification development for `interpreterv3.py`, a tree-walking interpreter
for a small statement-oriented language.  The interpreter's mutable `Value`
objects are modelled as cells in an explicit store (`List Value`) addressed by
`Nat`; Python object dictionaries (`dict` payloads of OBJECT values) live in a
separate heap `objHeap : List (List (String × Nat))` whose entries map field
names to cell addresses.  Aliasing of Python object references is therefore
address sharing.  The collaborator modules (`env_v3.py`, `func_v3.py`,
`intbase.py`, `tokenize.py`) are not part of the source; their operations are
modelled from the specification's external-interface contracts and are marked
`Modelled from the spec:` in their doc comments.
-/

namespace Interp

/-- The `Type` enum of the source (line 9): INT, BOOL, STRING, VOID, FUNC, OBJECT.
(Named `Ty` because `Type` is reserved in Lean.) -/
inductive Ty
| INT
| BOOL
| STRING
| VOID
| FUNC
| OBJECT
deriving DecidableEq, Repr

/-- Modelled from the spec: `FuncInfo` of `func_v3.py` — ordered parameter list of
(name, typeKeyword) pairs, body start position, declared return type keyword, and
the capture list.  Captures hold references to `Value` cells, so here they are
(name, cell address) pairs.  `start_ip` is an `Int` because the source constructs
a default `FuncInfo([], -1)`. -/
structure FuncInfo where
  params : List (String × String)
  start_ip : Int
  return_type : String
  captures : List (String × Nat)
deriving DecidableEq, Repr

/-- The payload carried by a `Value` (the Python attribute `v`).  A Python value
can be an int, bool, str, None, a `FuncInfo`, or a dict; dict payloads are
addresses into the object heap. -/
inductive Payload
| pint (i : Int)
| pbool (b : Bool)
| pstr (s : String)
| pnone
| pfunc (fi : FuncInfo)
| pdict (d : Nat)
deriving DecidableEq, Repr

/-- The `Value` class of the source (line 18): a type tag `t` and a payload `v`.
Python `Value` objects are mutable cells; a cell is an entry of the store and
this structure is the cell's current content.  `Value.set` (line 26) replaces
both fields, so cell mutation is modelled as replacing the store entry. -/
structure Value where
  t : Ty
  v : Payload
deriving DecidableEq, Repr

/-- Modelled from the spec: the error categories of `intbase.ErrorType`. -/
inductive ErrorType
| SYNTAX_ERROR
| TYPE_ERROR
| NAME_ERROR
deriving DecidableEq, Repr

/-- An uncaught Python exception (distinct from a diagnosed `ErrorType` abort):
IndexError from indexing/popping, TypeError/ValueError/AttributeError/KeyError
from built-in operations, ZeroDivisionError, a failed assert, the dispatcher's
`raise Exception` for an unknown command, reading input past the provided lines,
exhaustion of the deep-copy fuel (only possible on cyclic heaps), and storing a
Python `None` where the model requires an address. -/
inductive Fault
| indexError
| typeFault
| valueFault
| attributeFault
| keyFault
| assertFault
| unknownCommand
| zeroDivision
| recursionFault
| inputExhausted
| noneBinding
deriving DecidableEq, Repr

/-- Outcome of an aborted run: a diagnosed error (via `intbase.error`, which
never returns) or an uncaught Python exception. -/
inductive RunErr
| err (e : ErrorType) (msg : String)
| fault (f : Fault)
deriving DecidableEq, Repr

instance {ε α : Type} [DecidableEq ε] [DecidableEq α] : DecidableEq (Except ε α) := fun x y =>
  match x, y with
  | .ok a, .ok b =>
    if h : a = b then .isTrue (by rw [h]) else .isFalse (fun hc => by cases hc; exact h rfl)
  | .error a, .error b =>
    if h : a = b then .isTrue (by rw [h]) else .isFalse (fun hc => by cases hc; exact h rfl)
  | .ok _, .error _ => .isFalse (fun hc => by cases hc)
  | .error _, .ok _ => .isFalse (fun hc => by cases hc)

/-- Modelled from the spec: `SymbolResult` of `env_v3.py`. -/
inductive SymbolResult
| OK
| ERROR
deriving DecidableEq, Repr

/- Keyword constants.  Modelled from the spec: these are `InterpreterBase`
class constants of `intbase.py`; the exact spellings follow the statement
grammar in the external-interface section.  `RESULT_DEF` must be `"result"`
because the source itself uses the literal name `"resultf"` (line 323) for the
value produced by `RESULT_DEF + 'f'`. -/

def ASSIGN_DEF : String := "assign"
def FUNCCALL_DEF : String := "funccall"
def ENDFUNC_DEF : String := "endfunc"
def IF_DEF : String := "if"
def ELSE_DEF : String := "else"
def ENDIF_DEF : String := "endif"
def RETURN_DEF : String := "return"
def WHILE_DEF : String := "while"
def ENDWHILE_DEF : String := "endwhile"
def VAR_DEF : String := "var"
def LAMBDA_DEF : String := "lambda"
def ENDLAMBDA_DEF : String := "endlambda"
def PRINT_DEF : String := "print"
def INPUT_DEF : String := "input"
def STRTOINT_DEF : String := "strtoint"
def TRUE_DEF : String := "True"
def FALSE_DEF : String := "False"
def MAIN_FUNC : String := "main"
def RESULT_DEF : String := "result"
def INT_DEF : String := "int"
def STRING_DEF : String := "string"
def BOOL_DEF : String := "bool"
def VOID_DEF : String := "void"
def FUNC_DEF : String := "func"
def OBJECT_DEF : String := "object"
def REFINT_DEF : String := "refint"
def REFSTRING_DEF : String := "refstring"
def REFBOOL_DEF : String := "refbool"

/-- Python list indexing `l[i]`: negative indices count from the end; an index
out of range (after that adjustment) raises IndexError, modelled by `none`. -/
def pyIdx {α : Type} (l : List α) (i : Int) : Option α :=
  if 0 ≤ i then l.get? i.toNat
  else if 0 ≤ i + l.length then l.get? (i + l.length).toNat
  else none

/-- First character of a string (`token[0]`), `none` on the empty string. -/
def pyFront (s : String) : Option Char := s.toList.head?

/-- Python `str.isdigit()` restricted to ASCII: nonempty and all digits. -/
def pyIsDigit (s : String) : Bool := !s.toList.isEmpty && s.toList.all Char.isDigit

/-- Strip every leading and trailing occurrence of `c` (Python `s.strip('"')`). -/
def pyStrip (s : String) (c : Char) : String :=
  ⟨((s.toList.dropWhile (· = c)).reverse.dropWhile (· = c)).reverse⟩

/-- Split a character list at a separator character. -/
def splitCharsOn (c : Char) : List Char → List String
| [] => [""]
| x :: rest =>
  let r := splitCharsOn c rest
  if x = c then "" :: r
  else
    match r with
    | [] => [⟨[x]⟩]
    | piece :: more => (⟨x :: piece.toList⟩ : String) :: more

/-- Python `s.split(c)` for a single-character separator. -/
def pySplit (s : String) (c : Char) : List String := splitCharsOn c s.toList

/-- Whether `needle` occurs as a contiguous sublist of `hay`. -/
def subList : List Char → List Char → Bool
| _, [] => true
| [], _ :: _ => false
| x :: xs, needle => needle.isPrefixOf (x :: xs) || subList xs needle

/-- Python `needle in hay` for strings (substring containment). -/
def pyContains (hay needle : String) : Bool := subList hay.toList needle.toList

/-- Python `int(s)`: optional sign followed by at least one digit; anything else
raises ValueError (`none`). -/
def pyIntParse (s : String) : Option Int :=
  let core : List Char → Option Nat := fun cs =>
    if cs.isEmpty || !cs.all Char.isDigit then none
    else some (cs.foldl (fun n c => n * 10 + (c.toNat - '0'.toNat)) 0)
  match s.toList with
  | '-' :: rest => (core rest).map (fun n => -(n : Int))
  | '+' :: rest => (core rest).map (fun n => (n : Int))
  | cs => (core cs).map (fun n => (n : Int))

/-- Association-list lookup by string key (first match). -/
def alookup {α : Type} : List (String × α) → String → Option α
| [], _ => none
| (k, a) :: rest, key => if k = key then some a else alookup rest key

/-- Python dict insert-or-update: an existing key keeps its position and gets the
new value, a new key is appended (insertion order). -/
def dictSet {α : Type} : List (String × α) → String → α → List (String × α)
| [], key, a => [(key, a)]
| (k, b) :: rest, key, a =>
  if k = key then (k, a) :: rest else (k, b) :: dictSet rest key a

/-- A block scope: Python dict from variable name to the `Value` cell bound to
that name, modelled as name → store address in insertion order. -/
abbrev Scope := List (String × Nat)

/-- A call frame: its stack of nested block scopes.  The list order is the
Python list order of `env_v3`: index 0 is the frame's outermost scope, the last
element is the innermost. -/
abbrev Frame := List Scope

/-- The scope stack: one frame per active invocation, the last element is the
current frame. -/
abbrev Env := List Frame

/-- Modelled from the spec: name lookup within one frame, innermost scope
first. -/
def frameGet : Frame → String → Option Nat
| [], _ => none
| s :: rest, key =>
  match frameGet rest key with
  | some a => some a
  | none => alookup s key

/-- Modelled from the spec: `EnvironmentManager.get` — innermost-to-outermost
search in the current (last) frame only; no lookup crosses frames. -/
def envGet (env : Env) (key : String) : Option Nat :=
  match env.getLast? with
  | some f => frameGet f key
  | none => none

/-- Rebind `key` in the innermost scope of the frame that contains it;
`none` when the name is absent from the frame. -/
def frameSet : Frame → String → Nat → Option Frame
| [], _, _ => none
| s :: rest, key, a =>
  match frameSet rest key a with
  | some rest' => some (s :: rest')
  | none =>
    match alookup s key with
    | some _ => some (dictSet s key a :: rest)
    | none => none

/-- Modelled from the spec: `EnvironmentManager.set` — set an existing binding
in the current frame (innermost occurrence).  The interpreter only calls it
right after creating the symbol. -/
def envSet (env : Env) (key : String) (a : Nat) : Option Env :=
  match env.getLast? with
  | some f =>
    match frameSet f key a with
    | some f' => some (env.dropLast ++ [f'])
    | none => none
  | none => none

/-- Address used for a just-created, not-yet-set binding (Python would bind the
name to `None`); it is outside every store built by the model, so any read
before the following `set` faults like Python's `None` access would. -/
def deadAddr : Nat := 1000000000

/-- Modelled from the spec: `EnvironmentManager.create_new_symbol` — create a
binding in the current innermost scope, reporting `ERROR` if the name already
exists there; with `top = true`, create it in the frame's outermost scope only
if it does not already exist there (used for result binding).  `none` when
there is no frame or no scope (never happens in a run). -/
def create_new_symbol (env : Env) (key : String) (top : Bool) :
    Option (SymbolResult × Env) :=
  match env.getLast? with
  | none => none
  | some f =>
    if top then
      match f with
      | [] => none
      | s0 :: rest =>
        match alookup s0 key with
        | some _ => some (.OK, env)
        | none => some (.OK, env.dropLast ++ [(s0 ++ [(key, deadAddr)]) :: rest])
    else
      match f.getLast? with
      | none => none
      | some sIn =>
        match alookup sIn key with
        | some _ => some (.ERROR, env)
        | none =>
          some (.OK, env.dropLast ++ [f.dropLast ++ [sIn ++ [(key, deadAddr)]]])

/-- Modelled from the spec: `EnvironmentManager.import_mappings` — bulk-import
name→cell bindings into the current innermost scope (used right after a frame
push). -/
def add_mappings (env : Env) (m : List (String × Nat)) : Option Env :=
  match env.getLast? with
  | none => none
  | some f =>
    match f.getLast? with
    | none => none
    | some sIn =>
      some (env.dropLast ++ [f.dropLast ++ [m.foldl (fun s p => dictSet s p.1 p.2) sIn]])

/-- Modelled from the spec: push a call frame (with one empty scope, to be
populated by `add_mappings`). -/
def envPush (env : Env) : Env := env ++ [[[]]]

/-- Modelled from the spec: pop the current call frame. -/
def envPop (env : Env) : Option Env :=
  match env.getLast? with
  | some _ => some env.dropLast
  | none => none

/-- Modelled from the spec: `block_nest` — open a nested block scope in the
current frame. -/
def block_nest (env : Env) : Option Env :=
  match env.getLast? with
  | some f => some (env.dropLast ++ [f ++ [[]]])
  | none => none

/-- Modelled from the spec: `block_unnest` — close the innermost block scope of
the current frame (IndexError when there is none). -/
def block_unnest (env : Env) : Option Env :=
  match env.getLast? with
  | some f =>
    match f.getLast? with
    | some _ => some (env.dropLast ++ [f.dropLast])
    | none => none
  | none => none

/-- Allocate a fresh cell holding `v`; returns the new store and the address. -/
def alloc (store : List Value) (v : Value) : List Value × Nat :=
  (store ++ [v], store.length)

/-- Allocate a fresh object dict; returns the new heap and the dict address. -/
def allocDict (heap : List (List (String × Nat))) (d : List (String × Nat)) :
    List (List (String × Nat)) × Nat :=
  (heap ++ [d], heap.length)

/-- The interpreter state: the tokenized program with its parallel indentation
array, the instruction pointer `ip`, the `return_stack`, the `terminate` flag,
the scope stack `env`, the cell store, the object-dict heap, the function table
`funcs`, produced output and remaining input lines.  `retTypeAt` is modelled
from the spec: it stands for `func_v3.get_return_type_for_enclosing_function`,
which resolves the declared return type of the function or lambda lexically
enclosing a statement position (that module is not part of the source).  The
dict of the setup-time default OBJECT value (`_setup_default_values`, line 404)
is by convention heap address 0 of `objHeap`. -/
structure St where
  prog : List (List String)
  indents : List Nat
  ip : Int
  return_stack : List Int
  terminate : Bool
  env : Env
  store : List Value
  objHeap : List (List (String × Nat))
  funcs : List (String × FuncInfo)
  outLines : List String
  inLines : List String
  retTypeAt : Int → String

/-- `type_to_default` (lines 398-404): the default `Value` for each type
keyword.  The FUNC default is `Value(Type.FUNC, FuncInfo([], -1))`; the OBJECT
default is the single setup-time `Value(Type.OBJECT, {})`, whose dict is heap
address 0. -/
def type_to_default (k : String) : Option Value :=
  if k = INT_DEF then some ⟨.INT, .pint 0⟩
  else if k = STRING_DEF then some ⟨.STRING, .pstr ""⟩
  else if k = BOOL_DEF then some ⟨.BOOL, .pbool false⟩
  else if k = VOID_DEF then some ⟨.VOID, .pnone⟩
  else if k = FUNC_DEF then some ⟨.FUNC, .pfunc ⟨[], -1, VOID_DEF, []⟩⟩
  else if k = OBJECT_DEF then some ⟨.OBJECT, .pdict 0⟩
  else none

/-- `compatible_types` (lines 407-415): parameter type keyword → runtime type,
resolving the reference keywords to their underlying type. -/
def compatible_types (k : String) : Option Ty :=
  if k = INT_DEF then some .INT
  else if k = STRING_DEF then some .STRING
  else if k = BOOL_DEF then some .BOOL
  else if k = REFINT_DEF then some .INT
  else if k = REFSTRING_DEF then some .STRING
  else if k = REFBOOL_DEF then some .BOOL
  else if k = FUNC_DEF then some .FUNC
  else if k = OBJECT_DEF then some .OBJECT
  else none

/-- `reference_types` (line 416): the parameter kinds bound by reference. -/
def reference_types : List String := [REFINT_DEF, REFSTRING_DEF, REFBOOL_DEF, OBJECT_DEF]

/-- `type_to_result` (lines 420-425): result-variable suffix per type; VOID has
no entry (a lookup on it is a KeyError). -/
def type_to_result (t : Ty) : Option String :=
  match t with
  | .INT => some "i"
  | .STRING => some "s"
  | .BOOL => some "b"
  | .FUNC => some "f"
  | .OBJECT => some "o"
  | .VOID => none

/-- `binary_op_list` (line 430). -/
def binary_op_list : List String :=
  ["+", "-", "*", "/", "%", "==", "!=", "<", "<=", ">", ">=", "&", "|"]

/-- Modelled from the spec: `FunctionManager.create_function` — register/alias
a name to a `FuncInfo` (Python dict update). -/
def create_function (funcs : List (String × FuncInfo)) (name : String)
    (fi : FuncInfo) : List (String × FuncInfo) :=
  dictSet funcs name fi

/-- Python `str(...)` of a payload, as used by `_print`.  Ints, bools, strings
and `None` print exactly as in Python; `FuncInfo` and dict payloads print as
memory-address-dependent reprs in Python (not reproducible), rendered here as
fixed placeholder texts. -/
def py_str (p : Payload) : String :=
  match p with
  | .pint i => toString i
  | .pbool b => if b then "True" else "False"
  | .pstr s => s
  | .pnone => "None"
  | .pfunc _ => "<FuncInfo>"
  | .pdict _ => "<dict>"

/-- Python truthiness of a payload (`if value_type.value():`, line 201).  A
dict is truthy when nonempty, hence the heap argument. -/
def py_truthy (heap : List (List (String × Nat))) (p : Payload) : Bool :=
  match p with
  | .pint i => decide (i ≠ 0)
  | .pbool b => b
  | .pstr s => decide (s ≠ "")
  | .pnone => false
  | .pfunc _ => true
  | .pdict d => match pyIdx heap d with
    | some entries => !entries.isEmpty
    | none => true

/-- Python `value == False` as used by `_while` (line 261): `True` exactly for
`False` itself and for the number 0 (`0 == False` holds in Python); every other
payload, including `None` and `""`, compares unequal to `False`. -/
def py_eq_false (p : Payload) : Bool :=
  match p with
  | .pbool b => !b
  | .pint i => decide (i = 0)
  | _ => false

/-- Read the cell at `a`; IndexError-style fault when the address is not a live
cell (this happens only for the placeholder of a created-but-never-set binding,
where Python would hold `None` and crash on use). -/
def readCell (st : St) (a : Nat) : Except RunErr Value :=
  match st.store.get? a with
  | some c => .ok c
  | none => .error (.fault .attributeFault)

/-- `_get_value` (lines 474-502): resolve a token to a `Value` cell.  Literal
tokens (and function names) materialize a fresh cell, mirroring Python's fresh
`Value` objects; a variable token resolves to the very cell the name is bound
to, so aliasing flows through exactly as in the source. -/
def get_value (st : St) (token : String) : Except RunErr (St × Nat) :=
  if token = "" then .error (.err .NAME_ERROR "Empty token")
  else if pyFront token = some '"' then
    let (store', a) := alloc st.store ⟨.STRING, .pstr (pyStrip token '"')⟩
    .ok ({st with store := store'}, a)
  else if pyIsDigit token || pyFront token = some '-' then
    match pyIntParse token with
    | some i =>
      let (store', a) := alloc st.store ⟨.INT, .pint i⟩
      .ok ({st with store := store'}, a)
    | none => .error (.fault .valueFault)
  else if token = TRUE_DEF || token = FALSE_DEF then
    let (store', a) := alloc st.store ⟨.BOOL, .pbool (token = TRUE_DEF)⟩
    .ok ({st with store := store'}, a)
  else if pyContains token "." then
    match pySplit token '.' with
    | obj :: fieldName :: _ =>
      match envGet st.env obj with
      | none => .error (.fault .attributeFault)
      | some oa => do
        let cell ← readCell st oa
        match cell.v with
        | .pnone => .error (.err .TYPE_ERROR ("Variable not of type Object: " ++ token))
        | .pdict d =>
          match pyIdx st.objHeap d with
          | none => .error (.fault .keyFault)
          | some entries =>
            match alookup entries fieldName with
            | some a' => .ok (st, a')
            | none =>
              .error (.err .NAME_ERROR ("Object variable does not exist: " ++ token))
        | .pstr s =>
          if pyContains s fieldName then .error (.fault .typeFault)
          else .error (.err .NAME_ERROR ("Object variable does not exist: " ++ token))
        | _ => .error (.fault .typeFault)
    | _ => .error (.fault .typeFault)
  else
    match envGet st.env token with
    | some a => .ok (st, a)
    | none =>
      match alookup st.funcs token with
      | some fi =>
        let (store', a) := alloc st.store ⟨.FUNC, .pfunc fi⟩
        .ok ({st with store := store'}, a)
      | none => .error (.err .NAME_ERROR ("Unknown variable " ++ token))

/-- `_set_value` (lines 505-518): mutate the cell a variable name is bound
to.  For a plain name the target cell's content is replaced (so every alias of
that cell observes the change); for a dotted name the object's dict is updated
to map the field to the given cell itself (so the field aliases that cell), and
the object cell is rewritten with an OBJECT value carrying the same dict.  A
FUNC value is additionally registered in the function table under the name. -/
def set_value (st : St) (varname : String) (srcAddr : Nat) : Except RunErr St := do
  let value_type0 := envGet st.env varname
  let toVal ← readCell st srcAddr
  let st ←
    if toVal.t = .FUNC then
      match toVal.v with
      | .pfunc fi => pure {st with funcs := create_function st.funcs varname fi}
      | _ => .error (.fault .typeFault)
    else
      pure st
  if pyContains varname "." then
    match pySplit varname '.' with
    | obj :: fieldName :: _ =>
      match envGet st.env obj with
      | none => .error (.fault .attributeFault)
      | some oa => do
        let cell ← readCell st oa
        match cell.v with
        | .pdict d =>
          match pyIdx st.objHeap d with
          | none => .error (.fault .keyFault)
          | some entries =>
            let heap' := st.objHeap.set d (dictSet entries fieldName srcAddr)
            if oa < st.store.length then
              .ok {st with objHeap := heap',
                           store := st.store.set oa ⟨.OBJECT, .pdict d⟩}
            else .error (.fault .attributeFault)
        | _ => .error (.fault .typeFault)
    | _ => .error (.fault .typeFault)
  else
    match value_type0 with
    | none => .error (.err .NAME_ERROR ("Assignment of unknown variable " ++ varname))
    | some target =>
      if target < st.store.length then
        .ok {st with store := st.store.set target toVal}
      else .error (.fault .attributeFault)

/-- `_set_result` (lines 521-526): bind the reserved per-type result variable
in the current frame's outermost scope to a `copy.copy` of the value — a fresh
cell with the same content, so an OBJECT result shares the original's dict. -/
def set_result (st : St) (value_type : Value) : Except RunErr St :=
  match type_to_result value_type.t with
  | none => .error (.fault .keyFault)
  | some sfx =>
    let result_var := RESULT_DEF ++ sfx
    match create_new_symbol st.env result_var true with
    | none => .error (.fault .indexError)
    | some (_, env1) =>
      let (store', a) := alloc st.store value_type
      match envSet env1 result_var a with
      | some env2 => .ok {st with env := env2, store := store'}
      | none => .error (.fault .keyFault)

/-- The INT operator table of `_setup_operations` (lines 432-444).  Python `//`
and `%` are floor division and floor modulus, i.e. `Int.fdiv` / `Int.fmod`; a
zero divisor raises ZeroDivisionError. -/
def int_ops (op : String) (a b : Int) : Except RunErr Value :=
  if op = "+" then .ok ⟨.INT, .pint (a + b)⟩
  else if op = "-" then .ok ⟨.INT, .pint (a - b)⟩
  else if op = "*" then .ok ⟨.INT, .pint (a * b)⟩
  else if op = "/" then
    if b = 0 then .error (.fault .zeroDivision) else .ok ⟨.INT, .pint (Int.fdiv a b)⟩
  else if op = "%" then
    if b = 0 then .error (.fault .zeroDivision) else .ok ⟨.INT, .pint (Int.fmod a b)⟩
  else if op = "==" then .ok ⟨.BOOL, .pbool (decide (a = b))⟩
  else if op = "!=" then .ok ⟨.BOOL, .pbool (decide (a ≠ b))⟩
  else if op = ">" then .ok ⟨.BOOL, .pbool (decide (b < a))⟩
  else if op = "<" then .ok ⟨.BOOL, .pbool (decide (a < b))⟩
  else if op = ">=" then .ok ⟨.BOOL, .pbool (decide (b ≤ a))⟩
  else if op = "<=" then .ok ⟨.BOOL, .pbool (decide (a ≤ b))⟩
  else .error (.err .TYPE_ERROR ("Operator " ++ op ++ " is not compatible with Type.INT"))

/-- The STRING operator table (lines 445-453); comparisons are Python's
code-point lexicographic order. -/
def string_ops (op : String) (a b : String) : Except RunErr Value :=
  if op = "+" then .ok ⟨.STRING, .pstr (a ++ b)⟩
  else if op = "==" then .ok ⟨.BOOL, .pbool (decide (a = b))⟩
  else if op = "!=" then .ok ⟨.BOOL, .pbool (decide (a ≠ b))⟩
  else if op = ">" then .ok ⟨.BOOL, .pbool (decide (b < a))⟩
  else if op = "<" then .ok ⟨.BOOL, .pbool (decide (a < b))⟩
  else if op = ">=" then .ok ⟨.BOOL, .pbool (decide (b ≤ a))⟩
  else if op = "<=" then .ok ⟨.BOOL, .pbool (decide (a ≤ b))⟩
  else .error (.err .TYPE_ERROR ("Operator " ++ op ++ " is not compatible with Type.STRING"))

/-- The BOOL operator table (lines 454-459). -/
def bool_ops (op : String) (a b : Bool) : Except RunErr Value :=
  if op = "&" then .ok ⟨.BOOL, .pbool (a && b)⟩
  else if op = "|" then .ok ⟨.BOOL, .pbool (a || b)⟩
  else if op = "==" then .ok ⟨.BOOL, .pbool (a == b)⟩
  else if op = "!=" then .ok ⟨.BOOL, .pbool (a != b)⟩
  else .error (.err .TYPE_ERROR ("Operator " ++ op ++ " is not compatible with Type.BOOL"))

/-- Dispatch of `operations = self.binary_ops[v1.type()]` followed by
`operations[token](v1, v2)` (lines 538-541): a type outside the three tables is
a KeyError; an operator missing from the selected table is the TYPE_ERROR of
line 540 (raised inside the table functions above); a payload that does not
match the type tag would crash the table's lambda (never happens in a run,
since a cell's tag and payload are always set together). -/
def py_binary_op (t : Ty) (op : String) (x y : Payload) : Except RunErr Value :=
  match t with
  | .INT =>
    match x, y with
    | .pint a, .pint b => int_ops op a b
    | _, _ => .error (.fault .typeFault)
  | .STRING =>
    match x, y with
    | .pstr a, .pstr b => string_ops op a b
    | _, _ => .error (.fault .typeFault)
  | .BOOL =>
    match x, y with
    | .pbool a, .pbool b => bool_ops op a b
    | _, _ => .error (.fault .typeFault)
  | _ => .error (.fault .keyFault)

/-- The token-consumption loop of `_eval_expression` (lines 532-549): the
caller passes the token sequence already reversed; the stack holds cell
addresses (Python holds the `Value` objects themselves).  Popping an operand
off an exhausted stack is Python's IndexError. -/
def eval_tokens (st : St) : List String → List Nat → Except RunErr (St × List Nat)
| [], stack => .ok (st, stack)
| token :: rest, stack =>
  if binary_op_list.contains token then
    match stack with
    | v1 :: v2 :: stack' => do
      let c1 ← readCell st v1
      let c2 ← readCell st v2
      if c1.t ≠ c2.t then
        .error (.err .TYPE_ERROR "Mismatching types")
      else do
        let r ← py_binary_op c1.t token c1.v c2.v
        let (store', a) := alloc st.store r
        eval_tokens {st with store := store'} rest (a :: stack')
    | _ => .error (.fault .indexError)
  else if token = "!" then
    match stack with
    | v1 :: stack' => do
      let c1 ← readCell st v1
      if c1.t ≠ .BOOL then
        .error (.err .TYPE_ERROR "Expecting boolean for !")
      else
        match c1.v with
        | .pbool b =>
          let (store', a) := alloc st.store ⟨.BOOL, .pbool (!b)⟩
          eval_tokens {st with store := store'} rest (a :: stack')
        | _ => .error (.fault .typeFault)
    | _ => .error (.fault .indexError)
  else do
    let (st1, a) ← get_value st token
    eval_tokens st1 rest (a :: stack)

/-- `_eval_expression` (lines 529-554): scan the tokens in reverse with a
stack; after full consumption exactly one value must remain, else SYNTAX_ERROR
(line 552); that single value is the result (line 554). -/
def eval_expression (st : St) (tokens : List String) : Except RunErr (St × Nat) := do
  let (st1, stack) ← eval_tokens st tokens.reverse []
  match stack with
  | [a] => .ok (st1, a)
  | _ => .error (.err .SYNTAX_ERROR "Invalid expression")

mutual

/-- Python `copy.deepcopy` of a `Value`: a structurally fresh value — dict
payloads get a fresh dict whose field cells are freshly allocated deep copies,
FUNC payloads get a `FuncInfo` whose capture cells are freshly allocated deep
copies.  The fuel only limits recursion depth; Python's memoised deepcopy
terminates on cyclic heaps where this model faults, and preserves sharing
inside one copy where this model duplicates — no run in this development
deep-copies a cyclic or internally-shared structure. -/
def deepcopy_value : Nat → St → Value → Except RunErr (St × Value)
| 0, _, _ => .error (.fault .recursionFault)
| fuel + 1, st, val =>
  match val.v with
  | .pdict d =>
    match pyIdx st.objHeap d with
    | none => .error (.fault .keyFault)
    | some entries => do
      let (st1, entries') ← deepcopy_fields fuel st entries
      let (heap', d') := allocDict st1.objHeap entries'
      .ok ({st1 with objHeap := heap'}, ⟨val.t, .pdict d'⟩)
  | .pfunc fi => do
    let (st1, caps') ← deepcopy_fields fuel st fi.captures
    .ok (st1, ⟨val.t, .pfunc {fi with captures := caps'}⟩)
  | _ => .ok (st, val)

/-- Deep-copy each (name, cell) pair of a dict or capture list, allocating a
fresh cell per entry. -/
def deepcopy_fields : Nat → St → List (String × Nat) →
    Except RunErr (St × List (String × Nat))
| 0, _, _ => .error (.fault .recursionFault)
| _ + 1, st, [] => .ok (st, [])
| fuel + 1, st, (k, a) :: rest => do
  let cell ← readCell st a
  let (st1, cellCopy) ← deepcopy_value fuel st cell
  let (store', a') := alloc st1.store cellCopy
  let (st2, rest') ← deepcopy_fields fuel {st1 with store := store'} rest
  .ok (st2, (k, a') :: rest')

end

/-- Fuel that suffices for every acyclic deep copy arising in this
development. -/
def deep_fuel (st : St) : Nat := st.store.length + st.objHeap.length + 8

/-- The formal/actual binding loop of `_create_new_environment`
(lines 148-159): resolve each actual, check its type against the formal's
declared type via `compatible_types`, then bind the formal either to the very
same cell (reference kinds) or to a freshly allocated shallow copy; a FUNC
actual bound by value is also registered in the function table under the
formal's name.  Python's `zip` stops at the shorter list (the caller has
already checked the lengths are equal). -/
def bind_params (st : St) (funcname : String) :
    List (String × String) → List String → List (String × Nat) →
    Except RunErr (St × List (String × Nat))
| [], _, tmp => .ok (st, tmp)
| _ :: _, [], tmp => .ok (st, tmp)
| (formal_name, formal_typename) :: ps, actual :: acts, tmp => do
  let (st1, argA) ← get_value st actual
  let arg ← readCell st1 argA
  match compatible_types formal_typename with
  | none => .error (.fault .keyFault)
  | some cty =>
    if arg.t ≠ cty then
      .error (.err .TYPE_ERROR
        ("Mismatched parameter type for " ++ formal_name ++ " in call to " ++ funcname))
    else if reference_types.contains formal_typename then
      bind_params st1 funcname ps acts (dictSet tmp formal_name argA)
    else do
      let st2 ←
        if arg.t = .FUNC then
          match arg.v with
          | .pfunc fi => pure {st1 with funcs := create_function st1.funcs formal_name fi}
          | _ => .error (.fault .typeFault)
        else
          pure st1
      let (store', a') := alloc st2.store arg
      bind_params {st2 with store := store'} funcname ps acts (dictSet tmp formal_name a')

/-- The capture-materialisation loop of `_create_new_environment`
(lines 162-166): each captured cell's *current* content is deep-copied into a
fresh cell bound under the captured name (overwriting a same-named formal, as
Python dict assignment does). -/
def bind_captures (st : St) :
    List (String × Nat) → List (String × Nat) →
    Except RunErr (St × List (String × Nat))
| [], tmp => .ok (st, tmp)
| (varname, a) :: rest, tmp => do
  let cell ← readCell st a
  let (st1, vcopy) ← deepcopy_value (deep_fuel st) st cell
  let (store', a') := alloc st1.store vcopy
  bind_captures {st1 with store := store'} rest (dictSet tmp varname a')

/-- `_create_new_environment` (lines 138-178): look up the callee (unknown name
is a NAME_ERROR), check arity (mismatch is a NAME_ERROR), bind formals and
captures, inject `this` for a qualified call, then push a frame populated with
the bindings.  For a qualified call whose object variable is gone Python would
bind `this` to `None` and only crash on later use; the model faults at the
binding (the situation is unreachable in this development). -/
def create_new_environment (st : St) (funcname : String) (args : List String) :
    Except RunErr St :=
  match alookup st.funcs funcname with
  | none => .error (.err .NAME_ERROR ("Unknown function name " ++ funcname))
  | some formal_params =>
    if formal_params.params.length ≠ args.length then
      .error (.err .NAME_ERROR ("Mismatched parameter count in call to " ++ funcname))
    else do
      let (st1, tmp1) ← bind_params st funcname formal_params.params args []
      let (st2, tmp2) ← bind_captures st1 formal_params.captures tmp1
      let (st3, tmp3) ←
        if pyContains funcname "." then
          match pySplit funcname '.' with
          | obj :: _ =>
            match envGet st2.env obj with
            | some a => pure (st2, dictSet tmp2 "this" a)
            | none => .error (.fault .noneBinding)
          | [] => .error (.fault .typeFault)
        else
          pure (st2, tmp2)
      match add_mappings (envPush st3.env) tmp3 with
      | some env2 => .ok {st3 with env := env2}
      | none => .error (.fault .indexError)

/-- `_endfunc` (lines 180-193).  With an empty return stack the run is done
with main: only the `terminate` flag is set (no frame pop, no result binding,
no ip change).  Otherwise pop the frame, bind the result — the source's guard
is `if return_val:`, Python truthiness of a `Value`-object-or-`None`, and a
`Value` instance defines neither `__bool__` nor `__len__`, so the guard is
exactly "a return value reference is present" (`Option.isSome`), never the
truthiness of the wrapped primitive — and for an absent value bind the
enclosing return type's default unless that type is void; finally pop the
return position into the ip. -/
def endfunc (st : St) (return_val : Option Nat) : Except RunErr St :=
  match st.return_stack with
  | [] => .ok {st with terminate := true}
  | _ :: _ => do
    let st1 ←
      match envPop st.env with
      | some env1 => pure {st with env := env1}
      | none => .error (.fault .indexError)
    let st2 ←
      match return_val with
      | some a => do
        let cell ← readCell st a
        set_result st1 cell
      | none =>
        let return_type := st.retTypeAt st.ip
        if return_type ≠ VOID_DEF then
          match type_to_default return_type with
          | some d => set_result st1 d
          | none => .error (.fault .keyFault)
        else
          pure st1
    match st2.return_stack.getLast? with
    | some r => .ok {st2 with ip := r, return_stack := st2.return_stack.dropLast}
    | none => .error (.fault .indexError)

/-- `_endlambda` (lines 328-338): like the non-main branch of `_endfunc` but
with no empty-stack check — it pops the frame unconditionally and popping the
return position off an empty return stack is an IndexError. -/
def endlambda (st : St) (return_val : Option Nat) : Except RunErr St := do
  let st1 ←
    match envPop st.env with
    | some env1 => pure {st with env := env1}
    | none => .error (.fault .indexError)
  let st2 ←
    match return_val with
    | some a => do
      let cell ← readCell st a
      set_result st1 cell
    | none =>
      let return_type := st.retTypeAt st.ip
      if return_type ≠ VOID_DEF then
        match type_to_default return_type with
        | some d => set_result st1 d
        | none => .error (.fault .keyFault)
      else
        pure st1
  match st2.return_stack.getLast? with
  | some r => .ok {st2 with ip := r, return_stack := st2.return_stack.dropLast}
  | none => .error (.fault .indexError)

/-- The forward scan of `_if` (lines 206-216) and `_else` (lines 227-233):
from `cur` to the end of the program, skip token-less lines, and return the
line after the first `endif` — or, when `acceptElse` (the `_if` case), also an
`else` (second component `true` means a new block scope must be opened) — whose
indentation equals the opener's; falling off the end is the "Missing endif"
SYNTAX_ERROR.  There is no check against lines indented less than the opener.
The fuel argument is exact: the caller passes one more than the number of
remaining lines, so fuel exhaustion coincides with the end of the program. -/
def endif_scan (st : St) (acceptElse : Bool) : Nat → Int → Except RunErr (Int × Bool)
| 0, _ => .error (.err .SYNTAX_ERROR "Missing endif")
| fuel + 1, cur =>
  if cur < (st.prog.length : Int) then
    match pyIdx st.prog cur with
    | none => .error (.fault .indexError)
    | some tokens =>
      if tokens.isEmpty then endif_scan st acceptElse fuel (cur + 1)
      else if tokens.head? = some ENDIF_DEF then
        match pyIdx st.indents st.ip, pyIdx st.indents cur with
        | some iIp, some iCur =>
          if iIp = iCur then .ok (cur + 1, false)
          else endif_scan st acceptElse fuel (cur + 1)
        | _, _ => .error (.fault .indexError)
      else if acceptElse && tokens.head? = some ELSE_DEF then
        match pyIdx st.indents st.ip, pyIdx st.indents cur with
        | some iIp, some iCur =>
          if iIp = iCur then .ok (cur + 1, true)
          else endif_scan st acceptElse fuel (cur + 1)
        | _, _ => .error (.fault .indexError)
      else endif_scan st acceptElse fuel (cur + 1)
  else .error (.err .SYNTAX_ERROR "Missing endif")

/-- The forward scan of `_exit_while` (lines 270-281) and `_exit_lambda`
(lines 340-351), parameterised by the terminator keyword and error message:
return the line after the first terminator at the opener's indentation; a
token-less line crashes (the loop reads `tokenized_program[cur_line][0]`
before anything else, an IndexError on an empty list); a non-blank line
indented less than the opener breaks out to the "Missing ..." SYNTAX_ERROR.
(The source reads the indentation arrays only inside the comparisons; the
reads are hoisted here — `indents` always has the program's length.) -/
def fwd_scan (st : St) (keyword : String) (msg : String) (openIndent : Nat) :
    Nat → Int → Except RunErr Int
| 0, _ => .error (.err .SYNTAX_ERROR msg)
| fuel + 1, cur =>
  if cur < (st.prog.length : Int) then
    match pyIdx st.prog cur with
    | none => .error (.fault .indexError)
    | some tokens =>
      match tokens.head? with
      | none => .error (.fault .indexError)
      | some hd =>
        match pyIdx st.indents cur, pyIdx st.indents st.ip with
        | some iCur, some iIp =>
          if hd = keyword && iCur = openIndent then .ok (cur + 1)
          else if iCur < iIp then .error (.err .SYNTAX_ERROR msg)
          else fwd_scan st keyword msg openIndent fuel (cur + 1)
        | _, _ => .error (.fault .indexError)
  else .error (.err .SYNTAX_ERROR msg)

/-- The backward scan of `_endwhile` (lines 286-296): from `cur` down to line
0, find the `while` header at the opener's indentation and return its position;
token-less lines crash with IndexError exactly as in `fwd_scan`; a dedented
non-blank line breaks out to the "Missing while" SYNTAX_ERROR. -/
def while_scan (st : St) (openIndent : Nat) : Nat → Int → Except RunErr Int
| 0, _ => .error (.err .SYNTAX_ERROR "Missing while")
| fuel + 1, cur =>
  if 0 ≤ cur then
    match pyIdx st.prog cur with
    | none => .error (.fault .indexError)
    | some tokens =>
      match tokens.head? with
      | none => .error (.fault .indexError)
      | some hd =>
        match pyIdx st.indents cur, pyIdx st.indents st.ip with
        | some iCur, some iIp =>
          if hd = WHILE_DEF && iCur = openIndent then .ok cur
          else if iCur < iIp then .error (.err .SYNTAX_ERROR "Missing while")
          else while_scan st openIndent fuel (cur - 1)
        | _, _ => .error (.fault .indexError)
  else .error (.err .SYNTAX_ERROR "Missing while")

/-- The scan of `_lambda_or_func` (lines 300-311): from the line after the
return statement, find the first `endfunc` (`true`) or `endlambda` (`false`),
with no indentation matching at all; token-less lines crash with IndexError
(line 304 indexes `[0]` unconditionally); reaching the end of the program is
the source's `assert(False)`. -/
def lambda_or_func_scan (st : St) : Nat → Int → Except RunErr Bool
| 0, _ => .error (.fault .assertFault)
| fuel + 1, cur =>
  if cur < (st.prog.length : Int) then
    match pyIdx st.prog cur with
    | none => .error (.fault .indexError)
    | some tokens =>
      match tokens.head? with
      | none => .error (.fault .indexError)
      | some hd =>
        if hd = ENDFUNC_DEF then .ok true
        else if hd = ENDLAMBDA_DEF then .ok false
        else lambda_or_func_scan st fuel (cur + 1)
  else .error (.fault .assertFault)

/-- Fuel covering a forward scan from position `cur` to the end of the
program: one more than the number of lines the loop can visit. -/
def fwd_fuel (st : St) (cur : Int) : Nat := ((st.prog.length : Int) - cur).toNat + 1

/-- `_lambda_or_func` (lines 300-311): decide whether the return belongs to a
function or a lambda and finish through `_endfunc` or `_endlambda`. -/
def lambda_or_func (st : St) (return_val : Option Nat) : Except RunErr St := do
  let isFunc ← lambda_or_func_scan st (fwd_fuel st (st.ip + 1)) (st.ip + 1)
  if isFunc then endfunc st return_val else endlambda st return_val

/-- Advance the instruction pointer by one (`_advance_to_next_statement`). -/
def advance (st : St) : St := {st with ip := st.ip + 1}

/-- Python `str` of a `Type` enum member, as interpolated into the TYPE_ERROR
message of `_assign` (line 116). -/
def tyStr (t : Ty) : String :=
  match t with
  | .INT => "Type.INT"
  | .BOOL => "Type.BOOL"
  | .STRING => "Type.STRING"
  | .VOID => "Type.VOID"
  | .FUNC => "Type.FUNC"
  | .OBJECT => "Type.OBJECT"

/-- `_assign` (lines 101-118): evaluate the right-hand side, fetch the target's
current type — for a dotted target only check that the base variable currently
holds an OBJECT (TYPE_ERROR otherwise) and treat the target type as OBJECT —
then raise TYPE_ERROR when the target's type is neither OBJECT nor the value's
type, and finally mutate through `set_value`. -/
def do_assign (st : St) (tokens : List String) : Except RunErr St :=
  match tokens with
  | [] => .error (.err .SYNTAX_ERROR "Invalid assignment statement")
  | [_] => .error (.err .SYNTAX_ERROR "Invalid assignment statement")
  | vname :: rest => do
    let (st1, aVal) ← eval_expression st rest
    let (st2, existingT) ←
      if !pyContains vname "." then do
        let (st2, aEx) ← get_value st1 vname
        let cell ← readCell st2 aEx
        pure (st2, cell.t)
      else
        match pySplit vname '.' with
        | obj :: _ => do
          let (st2, aObj) ← get_value st1 obj
          let cell ← readCell st2 aObj
          if cell.t ≠ .OBJECT then
            .error (.err .TYPE_ERROR "Cannot assign object variable to non-object")
          else
            pure (st2, Ty.OBJECT)
        | [] => .error (.fault .typeFault)
    let valCell ← readCell st2 aVal
    if existingT ≠ .OBJECT ∧ existingT ≠ valCell.t then
      .error (.err .TYPE_ERROR ("Trying to assign a variable of " ++ tyStr existingT ++
        " to a value of " ++ tyStr valCell.t))
    else do
      let st3 ← set_value st2 vname aVal
      .ok (advance st3)

/-- The argument loop of `_print` (lines 371-374): resolve each argument and
render it with `str(...)`. -/
def print_args (st : St) : List String → List String → Except RunErr (St × List String)
| [], acc => .ok (st, acc)
| arg :: rest, acc => do
  let (st1, a) ← get_value st arg
  let cell ← readCell st1 a
  print_args st1 rest (acc ++ [py_str cell.v])

/-- `_print` (lines 368-375): emit the concatenation of the rendered
arguments as one output line. -/
def do_print (st : St) (args : List String) : Except RunErr St :=
  if args.isEmpty then .error (.err .SYNTAX_ERROR "Invalid print call syntax")
  else do
    let (st1, parts) ← print_args st args []
    .ok {st1 with outLines := st1.outLines ++ [String.join parts]}

/-- `_input` (lines 377-381): optionally print a prompt, then consume one input
line into the STRING result variable.  Modelled from the spec: `get_input` of
`intbase.py` supplies the next provided input line; the model faults when none
is left. -/
def do_input (st : St) (args : List String) : Except RunErr St := do
  let st1 ← if !args.isEmpty then do_print st args else pure st
  match st1.inLines with
  | line :: rest => set_result {st1 with inLines := rest} ⟨.STRING, .pstr line⟩
  | [] => .error (.fault .inputExhausted)

/-- `_strtoint` (lines 383-389): exactly one STRING argument, converted with
`int(...)` into the INT result variable. -/
def do_strtoint (st : St) (args : List String) : Except RunErr St :=
  match args with
  | [arg] => do
    let (st1, a) ← get_value st arg
    let cell ← readCell st1 a
    if cell.t ≠ .STRING then
      .error (.err .TYPE_ERROR "Non-string passed to strtoint")
    else
      match cell.v with
      | .pstr s =>
        match pyIntParse s with
        | some i => set_result st1 ⟨.INT, .pint i⟩
        | none => .error (.fault .valueFault)
      | _ => .error (.fault .typeFault)
  | _ => .error (.err .SYNTAX_ERROR "Invalid strtoint call syntax")

/-- `_find_first_instruction` (lines 464-471): the callee's body start; when
the name is not in the function table, a same-named variable gives the
TYPE_ERROR of line 468, otherwise `_get_value`'s NAME_ERROR propagates. -/
def find_first_instruction (st : St) (funcname : String) : Except RunErr Int :=
  match alookup st.funcs funcname with
  | some fi => .ok fi.start_ip
  | none =>
    match get_value st funcname with
    | .ok _ => .error (.err .TYPE_ERROR ("Function name " ++ funcname ++ " not of type func"))
    | .error e => .error e

/-- `_funccall` (lines 120-135): built-ins `print`/`input`/`strtoint` execute
inline and advance; any other name pushes the return position, builds the
callee environment and jumps to the callee's first instruction. -/
def do_funccall (st : St) : List String → Except RunErr St
  | [] => .error (.err .SYNTAX_ERROR "Missing function name to call")
  | name :: rest =>
    if name = PRINT_DEF then do
      let st1 ← do_print st rest
      .ok (advance st1)
    else if name = INPUT_DEF then do
      let st1 ← do_input st rest
      .ok (advance st1)
    else if name = STRTOINT_DEF then do
      let st1 ← do_strtoint st rest
      .ok (advance st1)
    else do
      let st1 := {st with return_stack := st.return_stack ++ [st.ip + 1]}
      let st2 ← create_new_environment st1 name rest
      let tgt ← find_first_instruction st2 name
      .ok {st2 with ip := tgt}

/-- `_if` (lines 195-217): a BOOL condition; when true, advance and open a
nested scope; when false, scan forward for the matching `endif` (continue after
it) or `else` (continue after it inside a fresh nested scope). -/
def do_if (st : St) (args : List String) : Except RunErr St :=
  if args.isEmpty then .error (.err .SYNTAX_ERROR "Invalid if syntax")
  else do
    let (st1, a) ← eval_expression st args
    let cell ← readCell st1 a
    if cell.t ≠ .BOOL then
      .error (.err .TYPE_ERROR "Non-boolean if expression")
    else if py_truthy st1.objHeap cell.v then
      match block_nest (advance st1).env with
      | some env1 => .ok {advance st1 with env := env1}
      | none => .error (.fault .indexError)
    else do
      let (tgt, nest) ← endif_scan st1 true (fwd_fuel st1 (st1.ip + 1)) (st1.ip + 1)
      if nest then
        match block_nest st1.env with
        | some env1 => .ok {st1 with ip := tgt, env := env1}
        | none => .error (.fault .indexError)
      else .ok {st1 with ip := tgt}

/-- `_endif` (lines 219-221): advance and close the branch's scope. -/
def do_endif (st : St) : Except RunErr St :=
  match block_unnest st.env with
  | some env1 => .ok {advance st with env := env1}
  | none => .error (.fault .indexError)

/-- `_else` (lines 225-234): reached only by falling out of the true branch —
close that branch's scope and scan forward for the matching `endif`. -/
def do_else (st : St) : Except RunErr St := do
  let env1 ←
    match block_unnest st.env with
    | some env1 => pure env1
    | none => .error (.fault .indexError)
  let st1 := {st with env := env1}
  let (tgt, _) ← endif_scan st1 false (fwd_fuel st1 (st1.ip + 1)) (st1.ip + 1)
  .ok {st1 with ip := tgt}

/-- `_while` (lines 255-268): a BOOL condition; `== False` sends execution past
the matching `endwhile` via `_exit_while`; otherwise advance into the body
inside a fresh nested scope. -/
def do_while (st : St) (args : List String) : Except RunErr St :=
  if args.isEmpty then .error (.err .SYNTAX_ERROR "Missing while expression")
  else do
    let (st1, a) ← eval_expression st args
    let cell ← readCell st1 a
    if cell.t ≠ .BOOL then
      .error (.err .TYPE_ERROR "Non-boolean while expression")
    else if py_eq_false cell.v then
      match pyIdx st1.indents st1.ip with
      | none => .error (.fault .indexError)
      | some wIndent => do
        let tgt ← fwd_scan st1 ENDWHILE_DEF "Missing endwhile" wIndent
          (fwd_fuel st1 (st1.ip + 1)) (st1.ip + 1)
        .ok {st1 with ip := tgt}
    else
      match block_nest (advance st1).env with
      | some env1 => .ok {advance st1 with env := env1}
      | none => .error (.fault .indexError)

/-- `_endwhile` (lines 283-296): close the body scope, then scan backward for
the matching `while` header and jump there. -/
def do_endwhile (st : St) : Except RunErr St := do
  let env1 ←
    match block_unnest st.env with
    | some env1 => pure env1
    | none => .error (.fault .indexError)
  let st1 := {st with env := env1}
  match pyIdx st1.indents st1.ip with
  | none => .error (.fault .indexError)
  | some wIndent => do
    let tgt ← while_scan st1 wIndent ((st1.ip - 1).toNat + 2) (st1.ip - 1)
    .ok {st1 with ip := tgt}

/-- `_return` (lines 236-253): an expression returned from a void function is a
TYPE_ERROR; a bare return (or a void function) finishes with no value; an
expression must match the enclosing declared return type, else TYPE_ERROR. -/
def do_return (st : St) (args : List String) : Except RunErr St :=
  let return_type := st.retTypeAt st.ip
  match type_to_default return_type with
  | none => .error (.fault .keyFault)
  | some dflt =>
    if dflt.t = .VOID then
      if !args.isEmpty then
        .error (.err .TYPE_ERROR "Returning value from void function")
      else lambda_or_func st none
    else if args.isEmpty then lambda_or_func st none
    else do
      let (st1, a) ← eval_expression st args
      let cell ← readCell st1 a
      if cell.t ≠ dflt.t then
        .error (.err .TYPE_ERROR "Non-matching return type")
      else lambda_or_func st1 (some a)

/-- The per-name body of `_define_var` (lines 356-363): create the symbol
(redefinition in the same scope is a NAME_ERROR naming the statement's first
variable), check the type keyword, then bind a deep copy of the type's
default. -/
def define_one_var (st : St) (tyKeyword firstName varName : String) :
    Except RunErr St := do
  let (res, env1) ←
    match create_new_symbol st.env varName false with
    | some p => pure p
    | none => .error (.fault .indexError)
  if res ≠ SymbolResult.OK then
    .error (.err .NAME_ERROR ("Redefinition of variable " ++ firstName))
  else
    match type_to_default tyKeyword with
    | none => .error (.err .TYPE_ERROR ("Invalid type " ++ tyKeyword))
    | some d => do
      let st1 := {st with env := env1}
      let (st2, dcopy) ← deepcopy_value (deep_fuel st1) st1 d
      let (store', a) := alloc st2.store dcopy
      match envSet st2.env varName a with
      | some env2 => .ok {st2 with env := env2, store := store'}
      | none => .error (.fault .keyFault)

/-- The loop of `_define_var` over the declared names. -/
def define_vars (st : St) (tyKeyword firstName : String) :
    List String → Except RunErr St
| [] => .ok st
| n :: rest => do
  let st1 ← define_one_var st tyKeyword firstName n
  define_vars st1 tyKeyword firstName rest

/-- `_define_var` (lines 353-366): `var type name...` declares one or more
variables of one type, then advances. -/
def do_define_var (st : St) (args : List String) : Except RunErr St :=
  match args with
  | [] => .error (.err .SYNTAX_ERROR "Invalid var definition syntax")
  | [_] => .error (.err .SYNTAX_ERROR "Invalid var definition syntax")
  | tyKeyword :: names => do
    let st1 ← define_vars st tyKeyword (names.headD "") names
    .ok (advance st1)

/-- Modelled from the spec: `FunctionManager.set_lambda` — parse the lambda
header's `name:type` parameter tokens and trailing return type, and register,
under the reserved slot `resultf`, a `FuncInfo` whose body starts on the line
after the header and whose captures are the supplied list. -/
def set_lambda (st : St) (args : List String) (ip : Int)
    (captures : List (String × Nat)) : Except RunErr St :=
  match args.getLast? with
  | none => .error (.fault .indexError)
  | some rt =>
    let params := args.dropLast.map (fun tok =>
      match pySplit tok ':' with
      | n :: t :: _ => (n, t)
      | [n] => (n, "")
      | [] => ("", ""))
    .ok {st with funcs := create_function st.funcs "resultf" ⟨params, ip + 1, rt, captures⟩}

/-- `_lambda` (lines 313-326): flatten every scope of the current frame (outermost
first, so a later/inner capture of the same name overwrites an earlier one when
the capture list is materialised into a Python dict), register the lambda under
`resultf` with those captures — each capture holds the *cell* of the variable,
not its current value — bind a FUNC value referencing it into the result
variable, and skip past the matching `endlambda`. -/
def do_lambda (st : St) (args : List String) : Except RunErr St :=
  match st.env.getLast? with
  | none => .error (.fault .indexError)
  | some frame => do
    let captures := frame.foldl (fun acc scope => acc ++ scope) []
    let st1 ← set_lambda st args st.ip captures
    match alookup st1.funcs "resultf" with
    | none => .error (.fault .keyFault)
    | some fi => do
      let st2 ← set_result st1 ⟨.FUNC, .pfunc fi⟩
      match pyIdx st2.indents st2.ip with
      | none => .error (.fault .indexError)
      | some lIndent => do
        let tgt ← fwd_scan st2 ENDLAMBDA_DEF "Missing endlambda" lIndent
          (fwd_fuel st2 (st2.ip + 1)) (st2.ip + 1)
        .ok {st2 with ip := tgt}

/-- `_process_line` (lines 60-96): fetch the statement at the instruction
pointer (an out-of-range pointer is an IndexError on the program array), treat
a token-less line as a no-op advance, and dispatch on the head keyword; an
unrecognized keyword is the dispatcher's `raise Exception`. -/
def step (st : St) : Except RunErr St :=
  match pyIdx st.prog st.ip with
  | none => .error (.fault .indexError)
  | some tokens =>
    match tokens with
    | [] => .ok (advance st)
    | t0 :: args =>
      if t0 = ASSIGN_DEF then do_assign st args
      else if t0 = FUNCCALL_DEF then do_funccall st args
      else if t0 = ENDFUNC_DEF then endfunc st none
      else if t0 = IF_DEF then do_if st args
      else if t0 = ELSE_DEF then do_else st
      else if t0 = ENDIF_DEF then do_endif st
      else if t0 = RETURN_DEF then do_return st args
      else if t0 = WHILE_DEF then do_while st args
      else if t0 = ENDWHILE_DEF then do_endwhile st
      else if t0 = VAR_DEF then do_define_var st args
      else if t0 = LAMBDA_DEF then do_lambda st args
      else if t0 = ENDLAMBDA_DEF then endlambda st none
      else .error (.fault .unknownCommand)

/-- The main run loop (lines 56-58): `while not self.terminate:
self._process_line()`, cut off after `fuel` iterations (every claim supplies
ample fuel). -/
def runFor : Nat → St → Except RunErr St
| 0, st => .ok st
| fuel + 1, st =>
  if st.terminate then .ok st
  else do
    let st1 ← step st
    runFor fuel st1

/-! ## General lemmas -/

/-- `Int.fmod` by a negative divisor is in `(b, 0]`: the remainder's sign
matches the divisor. -/
theorem fmod_bounds_neg (a b : Int) (hb : b < 0) :
    b < Int.fmod a b ∧ Int.fmod a b ≤ 0 := by
  cases b with
  | ofNat k =>
    simp only [Int.ofNat_eq_coe] at hb
    omega
  | negSucc n =>
    cases a with
    | ofNat m =>
      cases m with
      | zero =>
        show Int.negSucc n < 0 ∧ (0 : Int) ≤ 0
        omega
      | succ m =>
        show Int.negSucc n < Int.subNatNat (m % n.succ) n ∧
          Int.subNatNat (m % n.succ) n ≤ 0
        rw [Int.subNatNat_eq_coe, Int.negSucc_eq]
        have hm : m % (n + 1) < n + 1 := Nat.mod_lt m (Nat.succ_pos n)
        simp only [Nat.succ_eq_add_one]
        omega
    | negSucc m =>
      show Int.negSucc n < -Int.ofNat (m.succ % n.succ) ∧
        -Int.ofNat (m.succ % n.succ) ≤ 0
      rw [Int.negSucc_eq]
      have hm : (m + 1) % (n + 1) < n + 1 := Nat.mod_lt (m + 1) (Nat.succ_pos n)
      simp only [Int.ofNat_eq_coe, Nat.succ_eq_add_one]
      omega

/-- `Int.fmod` by a positive divisor is in `[0, b)`. -/
theorem fmod_bounds_pos (a b : Int) (hb : 0 < b) :
    0 ≤ Int.fmod a b ∧ Int.fmod a b < b :=
  ⟨Int.fmod_nonneg' a hb, Int.fmod_lt_of_pos a hb⟩

/-- `Int.fdiv` (Python `//`) is the floor of the rational quotient. -/
theorem fdiv_eq_floor (a b : Int) (hb : b ≠ 0) :
    Int.fdiv a b = ⌊(a : ℚ) / (b : ℚ)⌋ := by
  have key : Int.fmod a b + b * Int.fdiv a b = a := Int.fmod_add_fdiv a b
  have hbq : (b : ℚ) ≠ 0 := Int.cast_ne_zero.mpr hb
  have ha : (a : ℚ) = (Int.fmod a b : ℚ) + (b : ℚ) * (Int.fdiv a b : ℚ) := by
    exact_mod_cast key.symm
  have hsplit : (a : ℚ) / (b : ℚ) =
      (Int.fdiv a b : ℚ) + (Int.fmod a b : ℚ) / (b : ℚ) := by
    rw [ha]
    field_simp
    ring
  have hfrac : ⌊(Int.fmod a b : ℚ) / (b : ℚ)⌋ = 0 := by
    rw [Int.floor_eq_zero_iff]
    constructor
    · rw [div_nonneg_iff]
      rcases lt_or_gt_of_ne hb with hneg | hpos
      · obtain ⟨h1, h2⟩ := fmod_bounds_neg a b hneg
        exact Or.inr ⟨by exact_mod_cast h2, by exact_mod_cast le_of_lt hneg⟩
      · obtain ⟨h1, h2⟩ := fmod_bounds_pos a b hpos
        exact Or.inl ⟨by exact_mod_cast h1, by exact_mod_cast le_of_lt hpos⟩
    · rw [div_lt_one_iff]
      rcases lt_or_gt_of_ne hb with hneg | hpos
      · obtain ⟨h1, h2⟩ := fmod_bounds_neg a b hneg
        exact Or.inr (Or.inr ⟨by exact_mod_cast hneg, by exact_mod_cast h1⟩)
      · obtain ⟨h1, h2⟩ := fmod_bounds_pos a b hpos
        exact Or.inl ⟨by exact_mod_cast hpos, by exact_mod_cast h2⟩
  rw [hsplit, Int.floor_int_add, hfrac, add_zero]

/-- Reduction of the `/` entry of the INT operator table on a nonzero
divisor. -/
theorem int_ops_div (a b : Int) (hb : b ≠ 0) :
    int_ops "/" a b = .ok ⟨.INT, .pint (Int.fdiv a b)⟩ := by
  unfold int_ops
  rw [if_neg (by decide), if_neg (by decide), if_neg (by decide), if_pos rfl, if_neg hb]

/-- Reduction of the `%` entry of the INT operator table on a nonzero
divisor. -/
theorem int_ops_mod (a b : Int) (hb : b ≠ 0) :
    int_ops "%" a b = .ok ⟨.INT, .pint (Int.fmod a b)⟩ := by
  unfold int_ops
  rw [if_neg (by decide), if_neg (by decide), if_neg (by decide), if_neg (by decide),
    if_pos rfl, if_neg hb]

/-- Splitting an `Except` bind that produced `ok`. -/
theorem except_bind_ok {α β : Type} {e : Except RunErr α} {f : α → Except RunErr β} {c : β} :
    (e >>= f) = .ok c ↔ ∃ b, e = .ok b ∧ f b = .ok c := by
  cases e <;> simp [Bind.bind, Except.bind]

/-- Splitting an `Except` bind that produced an error: either the first
computation failed with it, or it succeeded and the continuation failed. -/
theorem except_bind_err {α β : Type} {e : Except RunErr α} {f : α → Except RunErr β}
    {r : RunErr} :
    (e >>= f) = .error r ↔ e = .error r ∨ ∃ b, e = .ok b ∧ f b = .error r := by
  cases e <;> simp [Bind.bind, Except.bind]

/-- `dictSet` binds its key (first lookup finds the new value). -/
theorem alookup_dictSet_self {α : Type} (d : List (String × α)) (k : String) (a : α) :
    alookup (dictSet d k a) k = some a := by
  induction d with
  | nil => simp [dictSet, alookup]
  | cons hd tl ih =>
    obtain ⟨k', b⟩ := hd
    by_cases h : k' = k
    · subst h
      simp [dictSet, alookup]
    · simp [dictSet, alookup, h, ih]

/-- Lookup in a one-scope frame. -/
theorem frameGet_single (s : Scope) (k : String) : frameGet [s] k = alookup s k := by
  simp [frameGet]

/-- Name lookup only consults the last frame. -/
theorem envGet_concat (env : Env) (f : Frame) (k : String) :
    envGet (env ++ [f]) k = frameGet f k := by
  simp [envGet, List.getLast?_concat]

/-- Popping the frame just pushed restores the previous scope stack. -/
theorem envPop_concat (env : Env) (f : Frame) : envPop (env ++ [f]) = some env := by
  simp [envPop, List.getLast?_concat, List.dropLast_concat]

/-- The shape of a token that `_get_value` resolves by plain variable lookup:
not empty, not quoted, not an integer literal, not a boolean literal, and
without a dot. -/
def plain_var_token (tok : String) : Prop :=
  tok ≠ "" ∧ pyFront tok ≠ some '"' ∧ pyIsDigit tok = false ∧ pyFront tok ≠ some '-' ∧
  tok ≠ TRUE_DEF ∧ tok ≠ FALSE_DEF ∧ pyContains tok "." = false

instance (tok : String) : Decidable (plain_var_token tok) := by
  unfold plain_var_token
  infer_instance

/-- `_get_value` on a plain variable token bound in the current frame returns
that very cell and leaves the state untouched. -/
theorem get_value_plain {st : St} {tok : String} {p : Nat}
    (hshape : plain_var_token tok) (henv : envGet st.env tok = some p) :
    get_value st tok = .ok (st, p) := by
  obtain ⟨h1, h2, h3, h4, h5, h6, h7⟩ := hshape
  unfold get_value
  simp [h1, h2, h3, h4, h5, h6, h7, henv]

/-- `_set_value` on a dot-free name bound to a live cell replaces that cell's
content in place (registering the value in the function table when it is a
FUNC value). -/
theorem set_value_plain {st : St} {vname : String} {src p : Nat} {v : Value}
    (hdot : pyContains vname "." = false)
    (henv : envGet st.env vname = some p)
    (hsrc : st.store[src]? = some v)
    (hfunc : v.t = .FUNC → ∃ fj, v.v = .pfunc fj)
    (hp : p < st.store.length) :
    ∃ fs, set_value st vname src = .ok {st with store := st.store.set p v, funcs := fs} ∧
      (v.t ≠ .FUNC → fs = st.funcs) := by
  by_cases ht : v.t = .FUNC
  · obtain ⟨fj, hfj⟩ := hfunc ht
    refine ⟨create_function st.funcs vname fj, ?_, fun hc => absurd ht hc⟩
    simp [set_value, henv, readCell, hsrc, ht, hfj, hdot, hp, Bind.bind, Except.bind,
      Pure.pure, Except.pure]
  · refine ⟨st.funcs, ?_, fun _ => rfl⟩
    simp [set_value, henv, readCell, hsrc, ht, hdot, hp, Bind.bind, Except.bind,
      Pure.pure, Except.pure]

/-- Store content of a successful interpreter result at an address. -/
def result_store_at (r : Except RunErr St) (a : Nat) : Option Value :=
  match r with
  | .ok s => s.store[a]?
  | .error _ => none

/-- Instruction pointer of a successful interpreter result. -/
def result_ip (r : Except RunErr St) : Option Int :=
  match r with
  | .ok s => some s.ip
  | .error _ => none

/-- Termination flag of a successful interpreter result. -/
def result_terminate (r : Except RunErr St) : Option Bool :=
  match r with
  | .ok s => some s.terminate
  | .error _ => none

/-- Whether an interpreter outcome is a diagnosed error of the given kind. -/
def is_error_kind (r : Except RunErr St) (k : ErrorType) : Bool :=
  match r with
  | .error (.err e _) => e == k
  | _ => false

/-! ## Claim theorems -/

/-- C1: for every pair of Int operands with nonzero divisor, the `/` and `%`
entries of the interpreter's INT operator table use floor semantics: `/`
produces the floor of the rational quotient (rounding toward negative
infinity), the two results satisfy `a = b * q + r`, and the remainder's sign
matches the divisor for non-exact divisions (`r ∈ [0, b)` for positive `b`,
`r ∈ (b, 0]` for negative `b`); in particular `/ -7 2` yields `-4`, not the
truncated `-3`. -/
theorem C1_floor_division :
    (∀ a b : Int, b ≠ 0 → ∃ q r : Int,
      py_binary_op .INT "/" (.pint a) (.pint b) = .ok ⟨.INT, .pint q⟩ ∧
      py_binary_op .INT "%" (.pint a) (.pint b) = .ok ⟨.INT, .pint r⟩ ∧
      q = ⌊(a : ℚ) / (b : ℚ)⌋ ∧
      a = b * q + r ∧
      (0 < b → 0 ≤ r ∧ r < b) ∧
      (b < 0 → b < r ∧ r ≤ 0)) ∧
    py_binary_op .INT "/" (.pint (-7)) (.pint 2) = .ok ⟨.INT, .pint (-4)⟩ ∧
    py_binary_op .INT "/" (.pint (-7)) (.pint 2) ≠ .ok ⟨.INT, .pint (-3)⟩ := by
  refine ⟨?_, by decide, by decide⟩
  intro a b hb
  refine ⟨Int.fdiv a b, Int.fmod a b, ?_, ?_, ?_, ?_, ?_, ?_⟩
  · show int_ops "/" a b = _
    exact int_ops_div a b hb
  · show int_ops "%" a b = _
    exact int_ops_mod a b hb
  · exact fdiv_eq_floor a b hb
  · have := Int.fmod_add_fdiv a b
    omega
  · intro hpos
    exact fmod_bounds_pos a b hpos
  · intro hneg
    exact fmod_bounds_neg a b hneg

/-- Witness for C1 at the spec's own example `/ -7 2`. -/
theorem C1_floor_division_witness :
    ((2 : Int) ≠ 0) ∧
    (∃ q r : Int,
      py_binary_op .INT "/" (.pint (-7)) (.pint 2) = .ok ⟨.INT, .pint q⟩ ∧
      py_binary_op .INT "%" (.pint (-7)) (.pint 2) = .ok ⟨.INT, .pint r⟩ ∧
      q = ⌊((-7 : Int) : ℚ) / ((2 : Int) : ℚ)⌋ ∧
      (-7 : Int) = 2 * q + r ∧
      ((0 : Int) < 2 → 0 ≤ r ∧ r < 2) ∧
      ((2 : Int) < 0 → 2 < r ∧ r ≤ 0)) :=
  ⟨by decide, C1_floor_division.1 (-7) 2 (by decide)⟩

/-- C8: the expression evaluator consumes the token sequence right-to-left
with a stack (`eval_tokens` receives the reversed sequence and
`eval_expression` is by definition that consumption loop); whenever
consumption completes, a final stack of size other than one aborts with
SYNTAX_ERROR, and otherwise the single remaining value is the expression's
result. -/
theorem C8_stack_discipline :
    ∀ st tokens st' stack, eval_tokens st tokens.reverse [] = .ok (st', stack) →
      (stack.length ≠ 1 →
        eval_expression st tokens = .error (.err .SYNTAX_ERROR "Invalid expression")) ∧
      (∀ a, stack = [a] → eval_expression st tokens = .ok (st', a)) := by
  intro st tokens st' stack h
  constructor
  · intro hlen
    unfold eval_expression
    rw [h]
    cases stack with
    | nil => rfl
    | cons a rest =>
      cases rest with
      | nil => simp at hlen
      | cons b rest2 => rfl
  · intro a ha
    subst ha
    unfold eval_expression
    rw [h]
    rfl

/-- A state with empty program and store, used to instantiate C8. -/
def C8_state : St :=
  { prog := [], indents := [], ip := 0, return_stack := [], terminate := false,
    env := [[[]]], store := [], objHeap := [[]], funcs := [],
    outLines := [], inLines := [], retTypeAt := fun _ => VOID_DEF }

/-- The state after C8's witness evaluation allocated the two literals. -/
def C8_state2 : St := {C8_state with store := [⟨.INT, .pint 3⟩, ⟨.INT, .pint 5⟩]}

/-- Witness for C8: the ill-formed expression `5 3` leaves two values on the
stack and aborts with SYNTAX_ERROR. -/
theorem C8_stack_discipline_witness :
    eval_tokens C8_state (["5", "3"].reverse) [] = .ok (C8_state2, [1, 0]) ∧
    ([1, 0] : List Nat).length ≠ 1 ∧
    eval_expression C8_state ["5", "3"] = .error (.err .SYNTAX_ERROR "Invalid expression") :=
  ⟨rfl, by decide,
    (C8_stack_discipline C8_state ["5", "3"] C8_state2 [1, 0] rfl).1 (by decide)⟩

/-- A state whose variable `x` currently holds an OBJECT value, about to
execute `assign x 5`. -/
def C6_cex_state : St :=
  { prog := [["assign", "x", "5"]], indents := [0], ip := 0, return_stack := [],
    terminate := false, env := [[[("x", 0)]]], store := [⟨.OBJECT, .pdict 0⟩],
    objHeap := [[]], funcs := [], outLines := [], inLines := [],
    retTypeAt := fun _ => VOID_DEF }

/-- C6 counterexample: the claim states that assigning a value of a different
type to an existing variable aborts with a type error *for every existing
variable regardless of its current type*; but for a variable whose current
type is OBJECT the source's check (line 115) is skipped — `assign x 5` on an
OBJECT-typed `x` succeeds and overwrites the cell with an INT. -/
theorem C6_counterexample :
    result_store_at (step C6_cex_state) 0 = some ⟨.INT, .pint 5⟩ ∧
    is_error_kind (step C6_cex_state) .TYPE_ERROR = false :=
  ⟨rfl, rfl⟩

/-- C6 (amended): for an assignment to an existing dot-free variable, if the
evaluated right-hand value's type differs from the variable's current type
*and the variable's current type is not Object*, the run aborts with a type
error (an error return carries no successor state, so the variable is
unchanged); an existing variable currently of type Object accepts a right-hand
value of any type, its cell being overwritten in place. -/
theorem C6_assign_type_check :
    ∀ st vname rest st1 aV p cv v1,
      plain_var_token vname →
      eval_expression st rest = .ok (st1, aV) →
      envGet st1.env vname = some p →
      st1.store[p]? = some cv →
      st1.store[aV]? = some v1 →
      (cv.t ≠ .OBJECT → cv.t ≠ v1.t →
        do_assign st (vname :: rest) = .error (.err .TYPE_ERROR
          ("Trying to assign a variable of " ++ tyStr cv.t ++
            " to a value of " ++ tyStr v1.t))) ∧
      (cv.t = .OBJECT → (v1.t = .FUNC → ∃ fj, v1.v = .pfunc fj) →
        ∃ st2, do_assign st (vname :: rest) = .ok st2 ∧
          st2.store[p]? = some v1 ∧ st2.ip = st1.ip + 1) := by
  intro st vname rest st1 aV p cv v1 hshape heval henv hcv hv1
  have hrest : rest ≠ [] := by
    intro hr
    subst hr
    simp [eval_expression, eval_tokens, Bind.bind, Except.bind] at heval
  have hdot : pyContains vname "." = false := hshape.2.2.2.2.2.2
  have hp : p < st1.store.length := by
    by_contra hc
    rw [List.getElem?_eq_none (by omega)] at hcv
    cases hcv
  obtain ⟨r0, rest2⟩ := rest
  case nil => exact absurd rfl hrest
  constructor
  · intro hne hty
    simp [do_assign, heval, get_value_plain hshape henv, readCell, hcv, hv1, hdot,
      Bind.bind, Except.bind, Pure.pure, Except.pure, hne, hty]
  · intro hobj hfunc
    obtain ⟨fs, hsv, -⟩ := set_value_plain hdot henv hv1 hfunc hp
    refine ⟨advance {st1 with store := st1.store.set p v1, funcs := fs}, ?_, ?_, rfl⟩
    · simp [do_assign, hobj, heval, get_value_plain hshape henv, readCell, hcv, hv1, hdot,
        Bind.bind, Except.bind, Pure.pure, Except.pure, hsv, advance]
    · simp [advance, List.getElem?_set_self hp]

/-- Base state for the C6 witness: `x` currently holds INT 0. -/
def C6_wit_state : St :=
  { prog := [], indents := [], ip := 0, return_stack := [], terminate := false,
    env := [[[("x", 0)]]], store := [⟨.INT, .pint 0⟩], objHeap := [[]], funcs := [],
    outLines := [], inLines := [], retTypeAt := fun _ => VOID_DEF }

/-- State after evaluating the string literal of the C6 witness. -/
def C6_wit_state2 : St := {C6_wit_state with store := [⟨.INT, .pint 0⟩, ⟨.STRING, .pstr "a"⟩]}

/-- Witness for C6 (amended): assigning the STRING literal `"a"` to the
INT-typed variable `x` aborts with the type error. -/
theorem C6_assign_type_check_witness :
    plain_var_token "x" ∧
    eval_expression C6_wit_state ["\"a\""] = .ok (C6_wit_state2, 1) ∧
    envGet C6_wit_state2.env "x" = some 0 ∧
    C6_wit_state2.store[0]? = some ⟨.INT, .pint 0⟩ ∧
    C6_wit_state2.store[1]? = some ⟨.STRING, .pstr "a"⟩ ∧
    do_assign C6_wit_state ["x", "\"a\""] = .error (.err .TYPE_ERROR
      ("Trying to assign a variable of " ++ tyStr .INT ++
        " to a value of " ++ tyStr .STRING)) :=
  ⟨by decide, rfl, rfl, rfl, rfl,
    (C6_assign_type_check C6_wit_state "x" ["\"a\""] C6_wit_state2 1 0
      ⟨.INT, .pint 0⟩ ⟨.STRING, .pstr "a"⟩ (by decide) rfl rfl rfl rfl).1
      (by decide) (by decide)⟩

/-- A successful `pyIdx` at a nonnegative index is in range. -/
theorem pyIdx_some_bounds {α : Type} {l : List α} {i : Int} {x : α}
    (hi : 0 ≤ i) (h : pyIdx l i = some x) : i < (l.length : Int) := by
  unfold pyIdx at h
  rw [if_pos hi] at h
  obtain ⟨hw, -⟩ := List.get?_eq_some.mp h
  omega

/-- A state about to execute `if False` at indentation 2, where the next line
is non-blank at indentation 0 (a dedent below the opener) and a later `endif`
sits at indentation 2. -/
def C7_cex_state : St :=
  { prog := [["if", "False"], ["funccall", "print", "\"hi\""], ["endif"]],
    indents := [2, 0, 2], ip := 0, return_stack := [], terminate := false,
    env := [[[]]], store := [], objHeap := [[]], funcs := [],
    outLines := [], inLines := [], retTypeAt := fun _ => VOID_DEF }

/-- C7 counterexample: the claim states every block-terminator scan aborts
with a syntax error on a non-blank line indented less than the opener; but the
`_if` forward scan has no such check — here it passes the dedented line 1 and
matches the later `endif`, so the statement succeeds with the ip after that
`endif` (3) and no syntax error is raised. -/
theorem C7_counterexample :
    result_ip (step C7_cex_state) = some 3 ∧
    is_error_kind (step C7_cex_state) .SYNTAX_ERROR = false :=
  ⟨rfl, rfl⟩

/-- C7 (amended): in the `_exit_while`/`_exit_lambda` forward scans and the
`_endwhile` backward scan, a non-blank, non-matching line indented less than
the opener aborts the run with the "missing end…" syntax error, but a blank
(token-less) line is not skipped — the scan indexes its first token and
crashes with an IndexError; in the `_if`/`_else` forward scans, blank lines
are skipped, but there is no dedent check at all: any non-blank line that is
not a matching terminator is passed over regardless of its indentation, so
those scans may match a later same-indentation terminator instead of
aborting. -/
theorem C7_block_scans :
    (∀ st kw msg oi fuel cur toks hd iCur iIp,
      0 ≤ cur →
      pyIdx st.prog cur = some toks →
      toks.head? = some hd →
      pyIdx st.indents cur = some iCur →
      pyIdx st.indents st.ip = some iIp →
      ¬(hd = kw ∧ iCur = oi) →
      iCur < iIp →
      fwd_scan st kw msg oi (fuel + 1) cur = .error (.err .SYNTAX_ERROR msg)) ∧
    (∀ st kw msg oi fuel cur,
      0 ≤ cur →
      pyIdx st.prog cur = some [] →
      fwd_scan st kw msg oi (fuel + 1) cur = .error (.fault .indexError)) ∧
    (∀ st oi fuel cur toks hd iCur iIp,
      0 ≤ cur →
      pyIdx st.prog cur = some toks →
      toks.head? = some hd →
      pyIdx st.indents cur = some iCur →
      pyIdx st.indents st.ip = some iIp →
      ¬(hd = WHILE_DEF ∧ iCur = oi) →
      iCur < iIp →
      while_scan st oi (fuel + 1) cur = .error (.err .SYNTAX_ERROR "Missing while")) ∧
    (∀ st acceptElse fuel cur,
      0 ≤ cur →
      pyIdx st.prog cur = some [] →
      endif_scan st acceptElse (fuel + 1) cur = endif_scan st acceptElse fuel (cur + 1)) ∧
    (∀ st acceptElse fuel cur toks hd,
      0 ≤ cur →
      pyIdx st.prog cur = some toks →
      toks.head? = some hd →
      hd ≠ ENDIF_DEF → hd ≠ ELSE_DEF →
      endif_scan st acceptElse (fuel + 1) cur = endif_scan st acceptElse fuel (cur + 1)) := by
  refine ⟨?_, ?_, ?_, ?_, ?_⟩
  · intro st kw msg oi fuel cur toks hd iCur iIp hc hprog hhd hic hip hnm hdedent
    have hlt := pyIdx_some_bounds hc hprog
    unfold fwd_scan
    rw [if_pos hlt, hprog]
    simp only [hhd, hic, hip]
    rw [if_neg (by simp only [Bool.and_eq_true, decide_eq_true_eq]; tauto), if_pos hdedent]
  · intro st kw msg oi fuel cur hc hprog
    have hlt := pyIdx_some_bounds hc hprog
    unfold fwd_scan
    rw [if_pos hlt, hprog]
    rfl
  · intro st oi fuel cur toks hd iCur iIp hc hprog hhd hic hip hnm hdedent
    unfold while_scan
    rw [if_pos hc, hprog]
    simp only [hhd, hic, hip]
    rw [if_neg (by simp only [Bool.and_eq_true, decide_eq_true_eq]; tauto), if_pos hdedent]
  · intro st acceptElse fuel cur hc hprog
    have hlt := pyIdx_some_bounds hc hprog
    conv_lhs => rw [endif_scan]
    rw [if_pos hlt, hprog]
    simp [List.isEmpty]
  · intro st acceptElse fuel cur toks hd hc hprog hhd h1 h2
    have hlt := pyIdx_some_bounds hc hprog
    cases toks with
    | nil => cases hhd
    | cons a tl =>
      have ha : a = hd := by injection hhd
      subst ha
      conv_lhs => rw [endif_scan]
      rw [if_pos hlt, hprog]
      simp [h1, h2]

/-- A state whose `while` opener sits at indentation 2 while the next line is
non-blank at indentation 0, for the C7 witness. -/
def C7_wit_state : St :=
  { prog := [["while", "True"], ["funccall", "f"]], indents := [2, 0], ip := 0,
    return_stack := [], terminate := false, env := [[[]]], store := [],
    objHeap := [[]], funcs := [], outLines := [], inLines := [],
    retTypeAt := fun _ => VOID_DEF }

/-- Witness for C7 (amended): the `_exit_while` scan, at a non-blank line
dedented below the `while` opener, aborts with the "Missing endwhile" syntax
error. -/
theorem C7_block_scans_witness :
    (0 : Int) ≤ 1 ∧
    pyIdx C7_wit_state.prog 1 = some ["funccall", "f"] ∧
    (["funccall", "f"] : List String).head? = some "funccall" ∧
    pyIdx C7_wit_state.indents 1 = some 0 ∧
    pyIdx C7_wit_state.indents C7_wit_state.ip = some 2 ∧
    ¬(("funccall" : String) = ENDWHILE_DEF ∧ (0 : Nat) = 2) ∧
    (0 : Nat) < 2 ∧
    fwd_scan C7_wit_state ENDWHILE_DEF "Missing endwhile" 2 1 1 =
      .error (.err .SYNTAX_ERROR "Missing endwhile") :=
  ⟨by decide, rfl, rfl, rfl, rfl, by decide, by decide,
    C7_block_scans.1 C7_wit_state ENDWHILE_DEF "Missing endwhile" 2 0 1
      ["funccall", "f"] "funccall" 0 2 (by decide) rfl rfl rfl rfl (by decide) (by decide)⟩

/-- Lookup skips a prefix that does not bind the key. -/
theorem alookup_append_of_none {α : Type} {l1 : List (String × α)} (l2 : List (String × α))
    {k : String} (h : alookup l1 k = none) : alookup (l1 ++ l2) k = alookup l2 k := by
  induction l1 with
  | nil => simp
  | cons hd tl ih =>
    obtain ⟨k', b⟩ := hd
    by_cases hk : k' = k
    · simp [alookup, hk] at h
    · simp only [alookup, if_neg hk, List.cons_append] at h ⊢
      exact ih h

/-- `dictSet` leaves a prefix that does not bind the key untouched. -/
theorem dictSet_append_of_none {α : Type} {l1 : List (String × α)} (l2 : List (String × α))
    {k : String} (a : α) (h : alookup l1 k = none) :
    dictSet (l1 ++ l2) k a = l1 ++ dictSet l2 k a := by
  induction l1 with
  | nil => simp
  | cons hd tl ih =>
    obtain ⟨k', b⟩ := hd
    by_cases hk : k' = k
    · simp [alookup, hk] at h
    · simp only [alookup, if_neg hk, List.cons_append] at h ⊢
      simp only [dictSet, if_neg hk, List.cons_append]
      rw [ih h]

/-- `_set_result` in a frame whose single scope does not yet bind the result
variable: the variable is created in that (outermost) scope and bound to a
fresh cell holding a shallow copy of the value. -/
theorem set_result_fresh {st : St} {v : Value} {sfx : String} {E2 : Env} {sc : Scope}
    (hsfx : type_to_result v.t = some sfx)
    (henv : st.env = E2 ++ [[sc]])
    (hnone : alookup sc (RESULT_DEF ++ sfx) = none) :
    set_result st v = .ok {st with
      env := E2 ++ [[sc ++ [(RESULT_DEF ++ sfx, st.store.length)]]],
      store := st.store ++ [v]} := by
  have hlast : st.env.getLast? = some [sc] := by
    rw [henv, List.getLast?_concat]
  have hdrop : st.env.dropLast = E2 := by
    rw [henv, List.dropLast_concat]
  unfold set_result create_new_symbol envSet frameSet
  rw [hsfx, hlast]
  simp [hnone, hdrop, List.dropLast_concat, List.getLast?_concat,
    alookup_append_of_none _ hnone, alookup, dictSet_append_of_none _ _ hnone, dictSet,
    frameSet, alloc]

/-- C4: the source's check before binding a return value (`if return_val:`,
line 185) tests reference presence, not the wrapped primitive's truthiness, so
returning one of the falsy values Int 0, Bool false or the empty String is
still treated as "a value was returned": `_endfunc` with such a value binds
the caller's per-type result variable to that exact value, pops the return
position into the ip, and never takes the no-expression default path. -/
theorem C4_falsy_return :
    ∀ st a v R r E2 sc F sfx,
      st.store[a]? = some v →
      (v = ⟨.INT, .pint 0⟩ ∨ v = ⟨.BOOL, .pbool false⟩ ∨ v = ⟨.STRING, .pstr ""⟩) →
      type_to_result v.t = some sfx →
      st.return_stack = R ++ [r] →
      st.env = E2 ++ [[sc], F] →
      alookup sc (RESULT_DEF ++ sfx) = none →
      ∃ st', endfunc st (some a) = .ok st' ∧
        envGet st'.env (RESULT_DEF ++ sfx) = some st.store.length ∧
        st'.store[st.store.length]? = some v ∧
        st'.ip = r ∧ st'.return_stack = R := by
  intro st a v R r E2 sc F sfx hA hfalsy hsfx hstack henv hnone
  have henv' : st.env = (E2 ++ [[sc]]) ++ [F] := by simp [henv]
  have hpop : envPop st.env = some (E2 ++ [[sc]]) := by
    rw [henv']
    exact envPop_concat _ _
  have hrc : readCell st a = .ok v := by simp [readCell, hA]
  have hsr := @set_result_fresh {st with env := E2 ++ [[sc]]} v _ E2 sc hsfx rfl hnone
  refine ⟨{st with
        env := E2 ++ [[sc ++ [(RESULT_DEF ++ sfx, st.store.length)]]],
        store := st.store ++ [v],
        ip := r,
        return_stack := R}, ?_, ?_, ?_, rfl, rfl⟩
  · unfold endfunc
    split
    · rename_i hnil
      rw [hnil] at hstack
      exact absurd hstack.symm (by simp)
    · simp only [Bind.bind, Except.bind, Pure.pure, Except.pure, hpop, hrc, hsr]
      rw [hstack]
      simp [List.getLast?_concat, List.dropLast_concat]
  · rw [envGet_concat, frameGet_single, alookup_append_of_none _ hnone]
    simp [alookup]
  · simp [List.getElem?_concat_length]

/-- A callee returning INT 0 to a caller whose frame does not yet bind
`resulti`. -/
def C4_wit_state : St :=
  { prog := [], indents := [], ip := 0, return_stack := [7], terminate := false,
    env := [[[("z", 9)]], [[("a", 0)]]], store := [⟨.INT, .pint 0⟩], objHeap := [[]],
    funcs := [], outLines := [], inLines := [], retTypeAt := fun _ => VOID_DEF }

/-- Witness for C4: returning the value Int 0 binds `resulti` to a cell
holding exactly 0. -/
theorem C4_falsy_return_witness :
    C4_wit_state.store[(0 : Nat)]? = some ⟨.INT, .pint 0⟩ ∧
    ((⟨.INT, .pint 0⟩ : Value) = ⟨.INT, .pint 0⟩ ∨
      (⟨.INT, .pint 0⟩ : Value) = ⟨.BOOL, .pbool false⟩ ∨
      (⟨.INT, .pint 0⟩ : Value) = ⟨.STRING, .pstr ""⟩) ∧
    type_to_result (⟨.INT, .pint 0⟩ : Value).t = some "i" ∧
    C4_wit_state.return_stack = [] ++ [7] ∧
    C4_wit_state.env = [] ++ [[[("z", 9)]], [[("a", 0)]]] ∧
    alookup [("z", 9)] (RESULT_DEF ++ "i") = none ∧
    (∃ st', endfunc C4_wit_state (some 0) = .ok st' ∧
      envGet st'.env (RESULT_DEF ++ "i") = some C4_wit_state.store.length ∧
      st'.store[C4_wit_state.store.length]? = some ⟨.INT, .pint 0⟩ ∧
      st'.ip = 7 ∧ st'.return_stack = []) :=
  ⟨rfl, Or.inl rfl, rfl, rfl, rfl, by decide,
    C4_falsy_return C4_wit_state 0 ⟨.INT, .pint 0⟩ [] 7 [] [("z", 9)] [[("a", 0)]] "i"
      rfl (Or.inl rfl) rfl rfl rfl (by decide)⟩

/-- Two nested frames about to execute a default object return. -/
def C10_s0 : St :=
  { prog := [], indents := [], ip := 5, return_stack := [7], terminate := false,
    env := [[[]], [[]]], store := [], objHeap := [[]], funcs := [],
    outLines := [], inLines := [], retTypeAt := fun _ => OBJECT_DEF }

/-- C10: every default Object return aliases the interpreter's stored per-type
default.  First conjunct: whenever `_endfunc` takes the no-value path for a
declared `object` return type, the caller's `resulto` is bound to a fresh cell
whose payload is dict address 0 — the single setup-time default dict — and no
new dict is allocated.  Second conjunct, a concrete program run: after one
default object return, assigning a field through `resulto` plants it in that
shared dict, so the object produced by a *later* default return of another
call already contains the field. -/
theorem C10_default_object_sharing :
    (∀ st R r E2 sc F,
      st.retTypeAt st.ip = OBJECT_DEF →
      st.return_stack = R ++ [r] →
      st.env = E2 ++ [[sc], F] →
      alookup sc (RESULT_DEF ++ "o") = none →
      ∃ st', endfunc st none = .ok st' ∧
        envGet st'.env (RESULT_DEF ++ "o") = some st.store.length ∧
        st'.store[st.store.length]? = some ⟨.OBJECT, .pdict 0⟩ ∧
        st'.objHeap = st.objHeap) ∧
    (do
      let sb ← endfunc C10_s0 none
      let (sto2, q) := alloc sb.store ⟨.INT, .pint 5⟩
      let sc2 ← set_value {sb with store := sto2} "resulto.x" q
      let sd ← endfunc {sc2 with env := sc2.env ++ [[[]]], return_stack := [9]} none
      let (se, a2) ← get_value sd "resulto.x"
      pure se.store[a2]?) = Except.ok (some ⟨.INT, .pint 5⟩) := by
  constructor
  · intro st R r E2 sc F hrt hstack henv hnone
    have henv' : st.env = (E2 ++ [[sc]]) ++ [F] := by simp [henv]
    have hpop : envPop st.env = some (E2 ++ [[sc]]) := by
      rw [henv']
      exact envPop_concat _ _
    have hsr := @set_result_fresh {st with env := E2 ++ [[sc]]}
      ⟨.OBJECT, .pdict 0⟩ "o" E2 sc rfl rfl hnone
    refine ⟨{st with
          env := E2 ++ [[sc ++ [(RESULT_DEF ++ "o", st.store.length)]]],
          store := st.store ++ [⟨.OBJECT, .pdict 0⟩],
          ip := r,
          return_stack := R}, ?_, ?_, ?_, rfl⟩
    · unfold endfunc
      split
      · rename_i hnil
        rw [hnil] at hstack
        exact absurd hstack.symm (by simp)
      · simp only [Bind.bind, Except.bind, Pure.pure, Except.pure, hpop, hrt]
        rw [if_pos (by decide : OBJECT_DEF ≠ VOID_DEF)]
        rw [show type_to_default OBJECT_DEF = some ⟨.OBJECT, .pdict 0⟩ from rfl]
        simp only [hsr]
        rw [hstack]
        simp [List.getLast?_concat, List.dropLast_concat]
    · rw [envGet_concat, frameGet_single, alookup_append_of_none _ hnone]
      simp [alookup]
    · simp [List.getElem?_concat_length]
  · rfl

/-- Witness for C10 at the two-frame state `C10_s0`. -/
theorem C10_default_object_sharing_witness :
    C10_s0.retTypeAt C10_s0.ip = OBJECT_DEF ∧
    C10_s0.return_stack = [] ++ [7] ∧
    C10_s0.env = [] ++ [[[]], [[]]] ∧
    alookup ([] : Scope) (RESULT_DEF ++ "o") = none ∧
    (∃ st', endfunc C10_s0 none = .ok st' ∧
      envGet st'.env (RESULT_DEF ++ "o") = some C10_s0.store.length ∧
      st'.store[C10_s0.store.length]? = some ⟨.OBJECT, .pdict 0⟩ ∧
      st'.objHeap = C10_s0.objHeap) :=
  ⟨rfl, rfl, rfl, rfl,
    C10_default_object_sharing.1 C10_s0 [] 7 [] [] [[]] rfl rfl rfl rfl⟩

/-- C2: parameter binding for a one-parameter call.  A reference-kind formal
(refint/refstring/refbool/object) is bound to the caller's own cell, so a
mutation of the formal inside the callee (modelled by `_set_value` on the
formal with a freshly allocated value) is visible at the caller's cell after
the frame is popped; a value-kind formal is bound to a fresh copy cell, so the
caller's cell still holds its original value after the same mutation.  In both
cases popping the callee frame restores the caller's scope stack exactly. -/
theorem C2_parameter_binding :
    ∀ st f fi pn pt x p cv nv ty,
      alookup st.funcs f = some fi →
      fi.params = [(pn, pt)] →
      fi.captures = [] →
      pyContains f "." = false →
      plain_var_token x →
      envGet st.env x = some p →
      st.store[p]? = some cv →
      compatible_types pt = some ty →
      cv.t = ty →
      pyContains pn "." = false →
      (cv.t = .FUNC → ∃ fj, cv.v = .pfunc fj) →
      (nv.t = .FUNC → ∃ fj, nv.v = .pfunc fj) →
      (reference_types.contains pt = true →
        ∃ st1 st2, create_new_environment st f [x] = .ok st1 ∧
          envGet st1.env pn = some p ∧
          set_value {st1 with store := st1.store ++ [nv]} pn st1.store.length = .ok st2 ∧
          st2.store[p]? = some nv ∧
          envPop st2.env = some st.env) ∧
      (reference_types.contains pt = false →
        ∃ st1 st2 a', create_new_environment st f [x] = .ok st1 ∧
          envGet st1.env pn = some a' ∧ a' ≠ p ∧ st1.store[a']? = some cv ∧
          set_value {st1 with store := st1.store ++ [nv]} pn st1.store.length = .ok st2 ∧
          st2.store[p]? = some cv ∧
          envPop st2.env = some st.env) := by
  intro st f fi pn pt x p cv nv ty hf hparams hcaps hfdot hx henvx hcv hcty hcvty hpndot
    hcvfunc hnvfunc
  have hp : p < st.store.length := by
    by_contra hc
    rw [List.getElem?_eq_none (by omega)] at hcv
    cases hcv
  have hrc : readCell st p = .ok cv := by simp [readCell, hcv]
  constructor
  · intro href
    have hadd : add_mappings (envPush st.env) (dictSet [] pn p) =
        some (st.env ++ [[[(pn, p)]]]) := by
      unfold add_mappings envPush dictSet
      rw [List.getLast?_concat]
      simp [List.dropLast_concat]
    have hcne : create_new_environment st f [x] =
        .ok {st with env := st.env ++ [[[(pn, p)]]]} := by
      unfold create_new_environment
      simp only [hf]
      rw [hparams, hcaps]
      rw [if_neg (by simp)]
      unfold bind_params
      rw [get_value_plain hx henvx]
      simp only [Bind.bind, Except.bind, hrc, hcty, hcvty]
      rw [if_neg (by simp), if_pos href]
      unfold bind_params bind_captures
      simp only [hfdot, Bool.false_eq_true, if_false, Bind.bind, Except.bind,
        Pure.pure, Except.pure, hadd]
    have henvpn : envGet (st.env ++ [[[(pn, p)]]]) pn = some p := by
      rw [envGet_concat, frameGet_single]
      simp [alookup]
    have hsv := @set_value_plain
      {st with env := st.env ++ [[[(pn, p)]]], store := st.store ++ [nv]}
      pn st.store.length p nv
      hpndot henvpn (by simp [List.getElem?_concat_length]) hnvfunc
      (by simp; omega)
    obtain ⟨fs, hsv, -⟩ := hsv
    refine ⟨_, _, hcne, henvpn, hsv, ?_, ?_⟩
    · simp [List.getElem?_set_self (by simp; omega : p < (st.store ++ [nv]).length)]
    · exact envPop_concat _ _
  · intro href
    have hadd : add_mappings (envPush st.env) (dictSet [] pn st.store.length) =
        some (st.env ++ [[[(pn, st.store.length)]]]) := by
      unfold add_mappings envPush dictSet
      rw [List.getLast?_concat]
      simp [List.dropLast_concat]
    have key : ∀ fs2 : List (String × FuncInfo),
        create_new_environment st f [x] =
          .ok {st with
            env := st.env ++ [[[(pn, st.store.length)]]],
            store := st.store ++ [cv],
            funcs := fs2} →
        ∃ st1 st2 a', create_new_environment st f [x] = .ok st1 ∧
          envGet st1.env pn = some a' ∧ a' ≠ p ∧ st1.store[a']? = some cv ∧
          set_value {st1 with store := st1.store ++ [nv]} pn st1.store.length = .ok st2 ∧
          st2.store[p]? = some cv ∧
          envPop st2.env = some st.env := by
      intro fs2 hcne
      have henvpn : envGet (st.env ++ [[[(pn, st.store.length)]]]) pn =
          some st.store.length := by
        rw [envGet_concat, frameGet_single]
        simp [alookup]
      have hsv := @set_value_plain
        {st with
          env := st.env ++ [[[(pn, st.store.length)]]],
          store := (st.store ++ [cv]) ++ [nv],
          funcs := fs2}
        pn ((st.store ++ [cv]).length) st.store.length nv
        hpndot henvpn (by simpa using List.getElem?_concat_length (st.store ++ [cv]) nv)
        hnvfunc (by simp)
      obtain ⟨fs, hsv, -⟩ := hsv
      refine ⟨_, {st with
          env := st.env ++ [[[(pn, st.store.length)]]],
          store := ((st.store ++ [cv]) ++ [nv]).set st.store.length nv,
          funcs := fs}, st.store.length, hcne, henvpn, by omega, ?_, ?_, ?_, ?_⟩
      · simp [List.getElem?_concat_length]
      · simpa using hsv
      · rw [show (((st.store ++ [cv]) ++ [nv]).set st.store.length nv)[p]? =
            ((st.store ++ [cv]) ++ [nv])[p]? from
          List.getElem?_set_ne (by omega)]
        rw [List.getElem?_append_left (by simp; omega),
          List.getElem?_append_left (by omega)]
        exact hcv
      · exact envPop_concat _ _
    by_cases hft : cv.t = .FUNC
    · obtain ⟨fj, hfj⟩ := hcvfunc hft
      refine key (create_function st.funcs pn fj) ?_
      unfold create_new_environment
      simp only [hf]
      rw [hparams, hcaps]
      rw [if_neg (by simp)]
      unfold bind_params
      rw [get_value_plain hx henvx]
      simp only [Bind.bind, Except.bind, hrc, hcty, hcvty]
      rw [if_neg (by simp), if_neg (by rw [href]; simp)]
      have hft2 : ty = Ty.FUNC := by rw [← hcvty]; exact hft
      simp only [hft2, if_pos rfl, hfj, Bind.bind, Except.bind, Pure.pure, Except.pure, alloc]
      unfold bind_params bind_captures
      simp [hfdot, hadd, Bind.bind, Except.bind, Pure.pure, Except.pure]
    · refine key st.funcs ?_
      unfold create_new_environment
      simp only [hf]
      rw [hparams, hcaps]
      rw [if_neg (by simp)]
      unfold bind_params
      rw [get_value_plain hx henvx]
      simp only [Bind.bind, Except.bind, hrc, hcty, hcvty]
      rw [if_neg (by simp), if_neg (by rw [href]; simp)]
      have hft2 : ¬(ty = Ty.FUNC) := by rw [← hcvty]; exact hft
      rw [if_neg hft2]
      simp only [Bind.bind, Except.bind, Pure.pure, Except.pure, alloc]
      unfold bind_params bind_captures
      simp [hfdot, hadd, Bind.bind, Except.bind, Pure.pure, Except.pure]


/-- Caller state for the C2 witness: `y` holds INT 10 and `incr` takes a
`refint` parameter `a`. -/
def C2_wit_state : St :=
  { prog := [], indents := [], ip := 0, return_stack := [], terminate := false,
    env := [[[("y", 0)]]], store := [⟨.INT, .pint 10⟩], objHeap := [[]],
    funcs := [("incr", ⟨[("a", "refint")], 5, VOID_DEF, []⟩)],
    outLines := [], inLines := [], retTypeAt := fun _ => VOID_DEF }

/-- Witness for C2: calling `incr(y)` through the `refint` formal aliases
`y`'s cell, and writing INT 11 to the formal is seen at `y`'s cell. -/
theorem C2_parameter_binding_witness :
    alookup C2_wit_state.funcs "incr" =
      some (⟨[("a", "refint")], 5, VOID_DEF, []⟩ : FuncInfo) ∧
    reference_types.contains "refint" = true ∧
    (∃ st1 st2, create_new_environment C2_wit_state "incr" ["y"] = .ok st1 ∧
      envGet st1.env "a" = some 0 ∧
      set_value {st1 with store := st1.store ++ [⟨.INT, .pint 11⟩]} "a"
        st1.store.length = .ok st2 ∧
      st2.store[(0 : Nat)]? = some ⟨.INT, .pint 11⟩ ∧
      envPop st2.env = some C2_wit_state.env) :=
  ⟨rfl, by decide,
    (C2_parameter_binding C2_wit_state "incr" ⟨[("a", "refint")], 5, VOID_DEF, []⟩
      "a" "refint" "y" 0 ⟨.INT, .pint 10⟩ ⟨.INT, .pint 11⟩ .INT
      rfl rfl rfl (by decide) (by decide) rfl rfl (by decide) rfl (by decide)
      (by intro h; cases h) (by intro h; cases h)).1 (by decide)⟩

/-- Deep copy of an integer payload is the identity (no heap structure to
copy). -/
theorem deepcopy_pint (fuel : Nat) (st : St) (t : Ty) (i : Int) :
    deepcopy_value (fuel + 1) st ⟨t, .pint i⟩ = .ok (st, ⟨t, .pint i⟩) := rfl

/-- The forward scan succeeds immediately when the current line starts with
the expected terminator at the opener's indentation. -/
theorem fwd_scan_hit {st : St} {kw msg : String} {oi iIp : Nat} {fuel : Nat} {cur : Int}
    {toks : List String}
    (hc : 0 ≤ cur) (hprog : pyIdx st.prog cur = some toks)
    (hhd : toks.head? = some kw) (hind : pyIdx st.indents cur = some oi)
    (hip2 : pyIdx st.indents st.ip = some iIp) :
    fwd_scan st kw msg oi (fuel + 1) cur = .ok (cur + 1) := by
  have hlt := pyIdx_some_bounds hc hprog
  unfold fwd_scan
  rw [if_pos hlt, hprog]
  simp only [hhd, hind, hip2]
  simp

/-- C3: lambda capture is by live reference, materialised at call time.
Creating a lambda (`_lambda`) in a frame where `v` is bound to cell `p`
registers `resultf` with the capture pair `(v, p)` — the *cell*, not its
current value `V0`.  Mutating that cell afterwards (writing INT `i1` through
`_set_value`) and only then invoking the lambda binds the callee's `v` to a
*fresh* cell `a' ≠ p` holding the mutated value `i1`, not the creation-time
snapshot `V0`; the caller's own cell keeps `i1`. -/
theorem C3_lambda_capture :
    ∀ st E v p V0 i1 rtk ind0,
      st.env = E ++ [[[(v, p)]]] →
      st.store[p]? = some V0 →
      v ≠ "resultf" →
      pyContains v "." = false →
      0 ≤ st.ip →
      pyIdx st.indents st.ip = some ind0 →
      pyIdx st.prog (st.ip + 1) = some [ENDLAMBDA_DEF] →
      pyIdx st.indents (st.ip + 1) = some ind0 →
      ∃ fi st1 st2 st3 a',
        do_lambda st [rtk] = .ok st1 ∧
        alookup st1.funcs "resultf" = some fi ∧
        fi.captures = [(v, p)] ∧
        set_value {st1 with store := st1.store ++ [⟨.INT, .pint i1⟩]} v
          st1.store.length = .ok st2 ∧
        st2.store[p]? = some ⟨.INT, .pint i1⟩ ∧
        create_new_environment st2 "resultf" [] = .ok st3 ∧
        envGet st3.env v = some a' ∧ a' ≠ p ∧
        st3.store[a']? = some ⟨.INT, .pint i1⟩ ∧
        st3.store[p]? = some ⟨.INT, .pint i1⟩ := by
  intro st E v p V0 i1 rtk ind0 henv hV0 hvres hvdot hip hind hprogL hindL
  have hp : p < st.store.length := by
    by_contra hc
    rw [List.getElem?_eq_none (by omega)] at hV0
    cases hV0
  have hlast : st.env.getLast? = some [[(v, p)]] := by
    rw [henv, List.getLast?_concat]
  have hnone : alookup [(v, p)] (RESULT_DEF ++ "f") = none := by
    have : (RESULT_DEF ++ "f") = "resultf" := rfl
    rw [this]
    simp [alookup, hvres]
  have hsl : set_lambda st [rtk] st.ip [(v, p)] =
      .ok {st with funcs := dictSet st.funcs "resultf" ⟨[], st.ip + 1, rtk, [(v, p)]⟩} := by
    unfold set_lambda
    rfl
  have hsr := @set_result_fresh
    {st with funcs := dictSet st.funcs "resultf" ⟨[], st.ip + 1, rtk, [(v, p)]⟩}
    ⟨.FUNC, .pfunc ⟨[], st.ip + 1, rtk, [(v, p)]⟩⟩ "f"
    E [(v, p)] rfl henv hnone
  have hdl : do_lambda st [rtk] = .ok {st with
      funcs := dictSet st.funcs "resultf" ⟨[], st.ip + 1, rtk, [(v, p)]⟩,
      env := E ++ [[[(v, p), ("resultf", st.store.length)]]],
      store := st.store ++ [⟨.FUNC, .pfunc ⟨[], st.ip + 1, rtk, [(v, p)]⟩⟩],
      ip := st.ip + 2} := by
    unfold do_lambda
    rw [hlast]
    simp only [List.foldl, List.nil_append, hsl, Bind.bind, Except.bind]
    rw [alookup_dictSet_self]
    simp only [hsr]
    have hsc := @fwd_scan_hit {st with
        funcs := dictSet st.funcs "resultf" ⟨[], st.ip + 1, rtk, [(v, p)]⟩,
        env := E ++ [[[(v, p), ("resultf", st.store.length)]]],
        store := st.store ++ [⟨.FUNC, .pfunc ⟨[], st.ip + 1, rtk, [(v, p)]⟩⟩]}
      ENDLAMBDA_DEF "Missing endlambda" ind0 _
      (((st.prog.length : Int) - (st.ip + 1)).toNat) (st.ip + 1)
      [ENDLAMBDA_DEF]
      (by omega) hprogL rfl hindL hind
    rw [show (RESULT_DEF ++ "f") = "resultf" from rfl]
    simp only [fwd_fuel] at hsc ⊢
    simp [hind, hsc, Bind.bind, Except.bind]
    omega
  refine ⟨⟨[], st.ip + 1, rtk, [(v, p)]⟩,
    {st with
      funcs := dictSet st.funcs "resultf" ⟨[], st.ip + 1, rtk, [(v, p)]⟩,
      env := E ++ [[[(v, p), ("resultf", st.store.length)]]],
      store := st.store ++ [(⟨.FUNC, .pfunc ⟨[], st.ip + 1, rtk, [(v, p)]⟩⟩ : Value)],
      ip := st.ip + 2},
    {st with
      funcs := dictSet st.funcs "resultf" ⟨[], st.ip + 1, rtk, [(v, p)]⟩,
      env := E ++ [[[(v, p), ("resultf", st.store.length)]]],
      store := ((st.store ++ [(⟨.FUNC, .pfunc ⟨[], st.ip + 1, rtk, [(v, p)]⟩⟩ : Value)]) ++ [(⟨.INT, .pint i1⟩ : Value)]).set p (⟨.INT, .pint i1⟩ : Value),
      ip := st.ip + 2},
    {st with
      funcs := dictSet st.funcs "resultf" ⟨[], st.ip + 1, rtk, [(v, p)]⟩,
      env := (E ++ [[[(v, p), ("resultf", st.store.length)]]]) ++ [[[(v, st.store.length + 2)]]],
      store := (((st.store ++ [(⟨.FUNC, .pfunc ⟨[], st.ip + 1, rtk, [(v, p)]⟩⟩ : Value)]) ++ [(⟨.INT, .pint i1⟩ : Value)]).set p (⟨.INT, .pint i1⟩ : Value)) ++ [(⟨.INT, .pint i1⟩ : Value)],
      ip := st.ip + 2},
    st.store.length + 2,
    hdl, ?_, rfl, ?_, ?_, ?_, ?_, by omega, ?_, ?_⟩
  · exact alookup_dictSet_self _ _ _
  · have henv1 : envGet (E ++ [[[(v, p), ("resultf", st.store.length)]]]) v = some p := by
      rw [envGet_concat, frameGet_single]
      simp [alookup]
    obtain ⟨fs, hsv, hfs⟩ := @set_value_plain
      {st with
        funcs := dictSet st.funcs "resultf" ⟨[], st.ip + 1, rtk, [(v, p)]⟩,
        env := E ++ [[[(v, p), ("resultf", st.store.length)]]],
        store := (st.store ++ [(⟨.FUNC, .pfunc ⟨[], st.ip + 1, rtk, [(v, p)]⟩⟩ : Value)]) ++ [(⟨.INT, .pint i1⟩ : Value)],
        ip := st.ip + 2}
      v ((st.store ++ [(⟨.FUNC, .pfunc ⟨[], st.ip + 1, rtk, [(v, p)]⟩⟩ : Value)]).length) p (⟨.INT, .pint i1⟩ : Value)
      hvdot henv1 (by simpa using List.getElem?_concat_length (st.store ++ [(⟨.FUNC, .pfunc ⟨[], st.ip + 1, rtk, [(v, p)]⟩⟩ : Value)]) (⟨.INT, .pint i1⟩ : Value))
      (by intro h; cases h) (by simp; omega)
    have hfseq := hfs (by intro h; cases h)
    subst hfseq
    exact hsv
  · rw [List.getElem?_set_self (by simp; omega)]
  · have hadd3 : add_mappings (envPush (E ++ [[[(v, p), ("resultf", st.store.length)]]]))
        (dictSet [] v (st.store.length + 2)) =
        some ((E ++ [[[(v, p), ("resultf", st.store.length)]]]) ++
          [[[(v, st.store.length + 2)]]]) := by
      unfold add_mappings envPush dictSet
      rw [List.getLast?_concat]
      simp [List.dropLast_concat]
    have hrc2 : readCell ({st with
        funcs := dictSet st.funcs "resultf" ⟨[], st.ip + 1, rtk, [(v, p)]⟩,
        env := E ++ [[[(v, p), ("resultf", st.store.length)]]],
        store := ((st.store ++ [(⟨.FUNC, .pfunc ⟨[], st.ip + 1, rtk, [(v, p)]⟩⟩ : Value)]) ++ [(⟨.INT, .pint i1⟩ : Value)]).set p (⟨.INT, .pint i1⟩ : Value),
        ip := st.ip + 2}) p = .ok (⟨.INT, .pint i1⟩ : Value) := by
      have hplen : p < (st.store ++ [(⟨.FUNC, .pfunc ⟨[], st.ip + 1, rtk, [(v, p)]⟩⟩ : Value), (⟨.INT, .pint i1⟩ : Value)]).length := by
        simp
        omega
      simp [readCell, List.getElem?_set_self hplen]
    have hdc : deepcopy_value (deep_fuel ({st with
        funcs := dictSet st.funcs "resultf" ⟨[], st.ip + 1, rtk, [(v, p)]⟩,
        env := E ++ [[[(v, p), ("resultf", st.store.length)]]],
        store := ((st.store ++ [(⟨.FUNC, .pfunc ⟨[], st.ip + 1, rtk, [(v, p)]⟩⟩ : Value)]) ++ [(⟨.INT, .pint i1⟩ : Value)]).set p (⟨.INT, .pint i1⟩ : Value),
        ip := st.ip + 2})) ({st with
        funcs := dictSet st.funcs "resultf" ⟨[], st.ip + 1, rtk, [(v, p)]⟩,
        env := E ++ [[[(v, p), ("resultf", st.store.length)]]],
        store := ((st.store ++ [(⟨.FUNC, .pfunc ⟨[], st.ip + 1, rtk, [(v, p)]⟩⟩ : Value)]) ++ [(⟨.INT, .pint i1⟩ : Value)]).set p (⟨.INT, .pint i1⟩ : Value),
        ip := st.ip + 2}) (⟨.INT, .pint i1⟩ : Value) =
        .ok (({st with
        funcs := dictSet st.funcs "resultf" ⟨[], st.ip + 1, rtk, [(v, p)]⟩,
        env := E ++ [[[(v, p), ("resultf", st.store.length)]]],
        store := ((st.store ++ [(⟨.FUNC, .pfunc ⟨[], st.ip + 1, rtk, [(v, p)]⟩⟩ : Value)]) ++ [(⟨.INT, .pint i1⟩ : Value)]).set p (⟨.INT, .pint i1⟩ : Value),
        ip := st.ip + 2}), (⟨.INT, .pint i1⟩ : Value)) := deepcopy_pint _ _ _ _
    have hlen2 : (({st with
        funcs := dictSet st.funcs "resultf" ⟨[], st.ip + 1, rtk, [(v, p)]⟩,
        env := E ++ [[[(v, p), ("resultf", st.store.length)]]],
        store := ((st.store ++ [(⟨.FUNC, .pfunc ⟨[], st.ip + 1, rtk, [(v, p)]⟩⟩ : Value)]) ++ [(⟨.INT, .pint i1⟩ : Value)]).set p (⟨.INT, .pint i1⟩ : Value),
        ip := st.ip + 2}) : St).store.length = st.store.length + 2 := by
      simp
    unfold create_new_environment
    simp only [alookup_dictSet_self]
    rw [if_neg (by simp)]
    unfold bind_params bind_captures
    simp only [Bind.bind, Except.bind, Pure.pure, Except.pure, hrc2, hdc, alloc]
    unfold bind_captures
    simp only [Bind.bind, Except.bind, Pure.pure, Except.pure]
    rw [show pyContains "resultf" "." = false from rfl]
    simp [hadd3]
  · rw [envGet_concat, frameGet_single]
    simp [alookup]
  · simpa using List.getElem?_concat_length
      (((st.store ++ [(⟨.FUNC, .pfunc ⟨[], st.ip + 1, rtk, [(v, p)]⟩⟩ : Value)]) ++ [(⟨.INT, .pint i1⟩ : Value)]).set p (⟨.INT, .pint i1⟩ : Value)) (⟨.INT, .pint i1⟩ : Value)
  · rw [List.getElem?_append_left (by simp; omega)]
    rw [List.getElem?_set_self (by simp; omega)]


/-- A frame binding `w` to cell 0 (INT 1), about to create a lambda whose
terminator is on the next line. -/
def C3_wit_state : St :=
  { prog := [["lambda", "int"], ["endlambda"]], indents := [0, 0], ip := 0,
    return_stack := [], terminate := false, env := [[[("w", 0)]]],
    store := [⟨.INT, .pint 1⟩], objHeap := [[]], funcs := [],
    outLines := [], inLines := [], retTypeAt := fun _ => VOID_DEF }

/-- Witness for C3 at `C3_wit_state`: `w` is captured by cell, mutated to
INT 2 after creation, and the invocation observes 2. -/
theorem C3_lambda_capture_witness :
    C3_wit_state.env = [] ++ [[[("w", 0)]]] ∧
    C3_wit_state.store[(0 : Nat)]? = some ⟨.INT, .pint 1⟩ ∧
    ("w" : String) ≠ "resultf" ∧
    pyContains "w" "." = false ∧
    (0 : Int) ≤ C3_wit_state.ip ∧
    pyIdx C3_wit_state.indents C3_wit_state.ip = some 0 ∧
    pyIdx C3_wit_state.prog (C3_wit_state.ip + 1) = some [ENDLAMBDA_DEF] ∧
    pyIdx C3_wit_state.indents (C3_wit_state.ip + 1) = some 0 ∧
    (∃ fi st1 st2 st3 a',
      do_lambda C3_wit_state ["int"] = .ok st1 ∧
      alookup st1.funcs "resultf" = some fi ∧
      fi.captures = [("w", 0)] ∧
      set_value {st1 with store := st1.store ++ [⟨.INT, .pint 2⟩]} "w"
        st1.store.length = .ok st2 ∧
      st2.store[(0 : Nat)]? = some ⟨.INT, .pint 2⟩ ∧
      create_new_environment st2 "resultf" [] = .ok st3 ∧
      envGet st3.env "w" = some a' ∧ a' ≠ 0 ∧
      st3.store[a']? = some ⟨.INT, .pint 2⟩ ∧
      st3.store[(0 : Nat)]? = some ⟨.INT, .pint 2⟩) :=
  ⟨rfl, rfl, by decide, by decide, by decide, rfl, rfl, rfl,
    C3_lambda_capture C3_wit_state [] "w" 0 ⟨.INT, .pint 1⟩ 2 "int" 0
      rfl rfl (by decide) (by decide) (by decide) rfl rfl rfl⟩

end Interp

namespace Interp

def arg_matches (st : St) (prm : String × String) (tok : String) : Prop :=
  plain_var_token tok ∧
  ∃ p w ty, envGet st.env tok = some p ∧ st.store[p]? = some w ∧
    compatible_types prm.2 = some ty ∧ w.t = ty ∧
    (w.t = .FUNC → ∃ fj, w.v = .pfunc fj)

theorem bind_params_type_error
    (funcname pn pt x : String) (P2 : List (String × String)) (A2 : List String)
    {ty : Ty} {P1 : List (String × String)} {A1 : List String} (st0 : St) :
    ∀ (st : St) (tmp : List (String × Nat)),
      st.env = st0.env →
      (∀ (a : Nat) (w : Value), st0.store[a]? = some w → st.store[a]? = some w) →
      List.Forall₂ (arg_matches st0) P1 A1 →
      plain_var_token x →
      (∃ p w, envGet st0.env x = some p ∧ st0.store[p]? = some w ∧
        compatible_types pt = some ty ∧ w.t ≠ ty) →
      bind_params st funcname (P1 ++ (pn, pt) :: P2) (A1 ++ x :: A2) tmp =
        .error (.err .TYPE_ERROR
          ("Mismatched parameter type for " ++ pn ++ " in call to " ++ funcname)) := by
  intro st tmp henv hext hforall hxshape hxbad
  induction hforall generalizing st tmp with
  | nil =>
    obtain ⟨p, w, hxp, hxw, hcty, hwt⟩ := hxbad
    simp only [List.nil_append]
    unfold bind_params
    rw [get_value_plain hxshape (by rw [henv]; exact hxp)]
    have hrc : readCell st p = .ok w := by simp [readCell, hext _ _ hxw]
    simp only [Bind.bind, Except.bind, hrc, hcty]
    rw [if_pos hwt]
  | @cons prm tok P1' A1' hhead htail ih =>
    obtain ⟨hshape1, p1, w1, ty1, hp1, hw1, hcty1, hwt1, hfn1⟩ := hhead
    obtain ⟨pf, pty⟩ := prm
    simp only [List.cons_append]
    unfold bind_params
    rw [get_value_plain hshape1 (by rw [henv]; exact hp1)]
    have hrc : readCell st p1 = .ok w1 := by simp [readCell, hext _ _ hw1]
    simp only [Bind.bind, Except.bind, hrc]
    simp only at hcty1
    simp only [hcty1]
    rw [if_neg (by simp [hwt1])]
    have hextS : ∀ (z : St), z.store = st.store ++ [w1] →
        ∀ (a : Nat) (w : Value), st0.store[a]? = some w → z.store[a]? = some w := by
      intro z hz a w hw
      obtain ⟨hlt, -⟩ := List.getElem?_eq_some.mp (hext a w hw)
      rw [hz, List.getElem?_append_left hlt]
      exact hext a w hw
    by_cases href : reference_types.contains pty
    · rw [if_pos href]
      exact ih st _ henv hext
    · rw [if_neg href]
      by_cases hw1f : w1.t = .FUNC
      · obtain ⟨fj, hfj⟩ := hfn1 hw1f
        simp only [hw1f, if_pos rfl, hfj, Bind.bind, Except.bind, Pure.pure, Except.pure,
          alloc]
        exact ih {st with
            funcs := create_function st.funcs pf fj,
            store := st.store ++ [w1]} _ henv (hextS _ rfl)
      · simp only [hw1f, if_false, Bind.bind, Except.bind, Pure.pure, Except.pure, alloc]
        exact ih {st with store := st.store ++ [w1]} _ henv (hextS _ rfl)

end Interp

namespace Interp

theorem do_funccall_cons (st : St) (name : String) (rest : List String) :
    do_funccall st (name :: rest) =
      (if name = PRINT_DEF then do
        let st1 ← do_print st rest
        .ok (advance st1)
      else if name = INPUT_DEF then do
        let st1 ← do_input st rest
        .ok (advance st1)
      else if name = STRTOINT_DEF then do
        let st1 ← do_strtoint st rest
        .ok (advance st1)
      else do
        let st1 := {st with return_stack := st.return_stack ++ [st.ip + 1]}
        let st2 ← create_new_environment st1 name rest
        let tgt ← find_first_instruction st2 name
        .ok {st2 with ip := tgt}) := rfl

/-- C5: for every call statement dispatched to a user function (not the
print/input/strtoint builtins): an unknown name aborts with NAME_ERROR
"Unknown function name ..."; a known name with mismatched argument count
aborts with NAME_ERROR "Mismatched parameter count ..."; and when the
counts agree, the first actual whose value's type differs from its formal's
declared type (reference keywords resolved to their underlying type) aborts
with TYPE_ERROR "Mismatched parameter type for ...". -/
theorem C5_call_errors :
    (∀ st name args,
      name ≠ PRINT_DEF → name ≠ INPUT_DEF → name ≠ STRTOINT_DEF →
      alookup st.funcs name = none →
      do_funccall st (name :: args) =
        .error (.err .NAME_ERROR ("Unknown function name " ++ name))) ∧
    (∀ st name args fi,
      name ≠ PRINT_DEF → name ≠ INPUT_DEF → name ≠ STRTOINT_DEF →
      alookup st.funcs name = some fi →
      fi.params.length ≠ args.length →
      do_funccall st (name :: args) =
        .error (.err .NAME_ERROR ("Mismatched parameter count in call to " ++ name))) ∧
    (∀ st name fi P1 pn pt P2 A1 x A2 ty,
      name ≠ PRINT_DEF → name ≠ INPUT_DEF → name ≠ STRTOINT_DEF →
      alookup st.funcs name = some fi →
      fi.params = P1 ++ (pn, pt) :: P2 →
      fi.params.length = (A1 ++ x :: A2).length →
      List.Forall₂ (arg_matches st) P1 A1 →
      plain_var_token x →
      (∃ p w, envGet st.env x = some p ∧ st.store[p]? = some w ∧
        compatible_types pt = some ty ∧ w.t ≠ ty) →
      do_funccall st (name :: (A1 ++ x :: A2)) =
        .error (.err .TYPE_ERROR
          ("Mismatched parameter type for " ++ pn ++ " in call to " ++ name))) := by
  refine ⟨?_, ?_, ?_⟩
  · intro st name args h1 h2 h3 hn
    rw [do_funccall_cons, if_neg h1, if_neg h2, if_neg h3]
    simp [create_new_environment, hn, Bind.bind, Except.bind]
  · intro st name args fi h1 h2 h3 hfi hlen
    rw [do_funccall_cons, if_neg h1, if_neg h2, if_neg h3]
    simp [create_new_environment, hfi, hlen, Bind.bind, Except.bind]
  · intro st name fi P1 pn pt P2 A1 x A2 ty h1 h2 h3 hfi hps hlen hforall hxshape hxbad
    rw [do_funccall_cons, if_neg h1, if_neg h2, if_neg h3]
    have hbp := bind_params_type_error name pn pt x P2 A2 st
      {st with return_stack := st.return_stack ++ [st.ip + 1]} []
      rfl (fun _ _ h => h) hforall hxshape hxbad
    unfold create_new_environment
    simp only [hfi, hps, hlen, Bind.bind, Except.bind]
    rw [if_neg (by rw [← hps, hlen]; simp)]
    simp [hbp, Bind.bind, Except.bind]

end Interp


namespace Interp

def C5_wit_state : St :=
  { prog := [], indents := [], ip := 0, return_stack := [], terminate := false,
    env := [[[("s0", 0)]]], store := [⟨.STRING, .pstr "x"⟩], objHeap := [[]],
    funcs := [("f", ⟨[("a", "int")], 5, VOID_DEF, []⟩)], outLines := [], inLines := [],
    retTypeAt := fun _ => VOID_DEF }

theorem C5_call_errors_witness :
    do_funccall C5_wit_state ["nope"] =
      .error (.err .NAME_ERROR ("Unknown function name " ++ "nope")) ∧
    do_funccall C5_wit_state ["f"] =
      .error (.err .NAME_ERROR ("Mismatched parameter count in call to " ++ "f")) ∧
    do_funccall C5_wit_state ["f", "s0"] =
      .error (.err .TYPE_ERROR
        ("Mismatched parameter type for " ++ "a" ++ " in call to " ++ "f")) :=
  ⟨C5_call_errors.1 C5_wit_state "nope" [] (by decide) (by decide) (by decide) rfl,
   C5_call_errors.2.1 C5_wit_state "f" [] ⟨[("a", "int")], 5, VOID_DEF, []⟩
     (by decide) (by decide) (by decide) rfl (by decide),
   C5_call_errors.2.2 C5_wit_state "f" ⟨[("a", "int")], 5, VOID_DEF, []⟩
     [] "a" "int" [] [] "s0" [] .INT
     (by decide) (by decide) (by decide) rfl rfl rfl List.Forall₂.nil (by decide)
     ⟨0, ⟨.STRING, .pstr "x"⟩, rfl, rfl, rfl, by decide⟩⟩

end Interp

namespace Interp

theorem get_value_tr {st : St} {tok : String} {r : St × Nat}
    (h : get_value st tok = .ok r) :
    r.1.terminate = st.terminate ∧ r.1.return_stack = st.return_stack := by
  simp only [get_value, Bind.bind, Except.bind] at h
  repeat' split at h
  all_goals cases h
  all_goals exact ⟨rfl, rfl⟩

theorem set_value_tr {st st' : St} {vn : String} {src : Nat}
    (h : set_value st vn src = .ok st') :
    st'.terminate = st.terminate ∧ st'.return_stack = st.return_stack := by
  simp only [set_value, Bind.bind, Except.bind, Pure.pure, Except.pure] at h
  repeat' split at h
  all_goals cases h
  all_goals exact ⟨rfl, rfl⟩

theorem set_result_tr {st st' : St} {v : Value}
    (h : set_result st v = .ok st') :
    st'.terminate = st.terminate ∧ st'.return_stack = st.return_stack := by
  simp only [set_result, Bind.bind, Except.bind, Pure.pure, Except.pure] at h
  repeat' split at h
  all_goals cases h
  all_goals exact ⟨rfl, rfl⟩

theorem eval_tokens_tr : ∀ (toks : List String) (st : St) (stack : List Nat)
    {r : St × List Nat},
    eval_tokens st toks stack = .ok r →
    r.1.terminate = st.terminate ∧ r.1.return_stack = st.return_stack := by
  intro toks
  induction toks with
  | nil =>
    intro st stack r h
    simp only [eval_tokens] at h
    cases h
    exact ⟨rfl, rfl⟩
  | cons t rest ih =>
    intro st stack r h
    simp only [eval_tokens, Bind.bind, Except.bind] at h
    repeat' split at h
    all_goals try cases h
    all_goals first
      | (have h2 := ih _ _ h; exact h2)
      | (rename_i heq
         have h1 := get_value_tr heq
         have h2 := ih _ _ h
         exact ⟨h2.1.trans h1.1, h2.2.trans h1.2⟩)

theorem eval_expression_tr {st : St} {toks : List String} {r : St × Nat}
    (h : eval_expression st toks = .ok r) :
    r.1.terminate = st.terminate ∧ r.1.return_stack = st.return_stack := by
  simp only [eval_expression, Bind.bind, Except.bind] at h
  repeat' split at h
  all_goals try cases h
  all_goals exact eval_tokens_tr _ _ _ (by assumption)

theorem deepcopy_tr : ∀ fuel : Nat,
    (∀ (st : St) (v : Value) {r : St × Value}, deepcopy_value fuel st v = .ok r →
      r.1.terminate = st.terminate ∧ r.1.return_stack = st.return_stack) ∧
    (∀ (st : St) (l : List (String × Nat)) {r : St × List (String × Nat)},
      deepcopy_fields fuel st l = .ok r →
      r.1.terminate = st.terminate ∧ r.1.return_stack = st.return_stack) := by
  intro fuel
  induction fuel with
  | zero =>
    constructor
    · intro st v r h
      simp only [deepcopy_value] at h
      cases h
    · intro st l r h
      simp only [deepcopy_fields] at h
      cases h
  | succ fuel ih =>
    constructor
    · intro st v r h
      simp only [deepcopy_value, Bind.bind, Except.bind] at h
      repeat' split at h
      all_goals try cases h
      all_goals first
        | exact ⟨rfl, rfl⟩
        | exact ih.2 _ _ (by assumption)
    · intro st l r h
      cases l with
      | nil =>
        simp only [deepcopy_fields] at h
        cases h
        exact ⟨rfl, rfl⟩
      | cons e rest =>
        simp only [deepcopy_fields, Bind.bind, Except.bind] at h
        repeat' split at h
        all_goals try cases h
        all_goals
          (have h1 := ih.1 _ _ (by assumption)
           have h2 := ih.2 _ _ (by assumption)
           exact ⟨h2.1.trans h1.1, h2.2.trans h1.2⟩)

theorem bind_params_tr : ∀ (ps : List (String × String)) (st : St) (fn : String)
    (acts : List String) (tmp : List (String × Nat)) {r : St × List (String × Nat)},
    bind_params st fn ps acts tmp = .ok r →
    r.1.terminate = st.terminate ∧ r.1.return_stack = st.return_stack := by
  intro ps
  induction ps with
  | nil =>
    intro st fn acts tmp r h
    simp only [bind_params] at h
    cases h
    exact ⟨rfl, rfl⟩
  | cons p ps ih =>
    intro st fn acts tmp r h
    cases acts with
    | nil =>
      simp only [bind_params] at h
      cases h
      exact ⟨rfl, rfl⟩
    | cons a as =>
      simp only [bind_params, Bind.bind, Except.bind, Pure.pure, Except.pure] at h
      repeat' split at h
      all_goals try cases h
      all_goals
        (have h1 := get_value_tr (by assumption)
         have h2 := ih _ _ _ _ h
         exact ⟨h2.1.trans h1.1, h2.2.trans h1.2⟩)

theorem bind_captures_tr : ∀ (l : List (String × Nat)) (st : St)
    (tmp : List (String × Nat)) {r : St × List (String × Nat)},
    bind_captures st l tmp = .ok r →
    r.1.terminate = st.terminate ∧ r.1.return_stack = st.return_stack := by
  intro l
  induction l with
  | nil =>
    intro st tmp r h
    simp only [bind_captures] at h
    cases h
    exact ⟨rfl, rfl⟩
  | cons e rest ih =>
    intro st tmp r h
    simp only [bind_captures, Bind.bind, Except.bind] at h
    repeat' split at h
    all_goals try cases h
    all_goals
      (have h1 := (deepcopy_tr _).1 _ _ (by assumption)
       have h2 := ih _ _ h
       exact ⟨h2.1.trans h1.1, h2.2.trans h1.2⟩)

theorem create_new_environment_tr {st st' : St} {fn : String} {args : List String}
    (h : create_new_environment st fn args = .ok st') :
    st'.terminate = st.terminate ∧ st'.return_stack = st.return_stack := by
  simp only [create_new_environment, Bind.bind, Except.bind, Pure.pure, Except.pure] at h
  repeat' split at h
  all_goals try cases h
  all_goals
    (have h1 := bind_params_tr _ _ _ _ _ (by assumption)
     have h2 := bind_captures_tr _ _ _ (by assumption)
     exact ⟨h2.1.trans h1.1, h2.2.trans h1.2⟩)

theorem print_args_tr : ∀ (args : List String) (st : St) (acc : List String)
    {r : St × List String},
    print_args st args acc = .ok r →
    r.1.terminate = st.terminate ∧ r.1.return_stack = st.return_stack := by
  intro args
  induction args with
  | nil =>
    intro st acc r h
    simp only [print_args] at h
    cases h
    exact ⟨rfl, rfl⟩
  | cons a rest ih =>
    intro st acc r h
    simp only [print_args, Bind.bind, Except.bind] at h
    repeat' split at h
    all_goals try cases h
    all_goals
      (have h1 := get_value_tr (by assumption)
       have h2 := ih _ _ h
       exact ⟨h2.1.trans h1.1, h2.2.trans h1.2⟩)

theorem do_print_tr {st st' : St} {args : List String}
    (h : do_print st args = .ok st') :
    st'.terminate = st.terminate ∧ st'.return_stack = st.return_stack := by
  simp only [do_print, Bind.bind, Except.bind] at h
  repeat' split at h
  all_goals try cases h
  all_goals exact print_args_tr _ _ _ (by assumption)

theorem do_input_tr {st st' : St} {args : List String}
    (h : do_input st args = .ok st') :
    st'.terminate = st.terminate ∧ st'.return_stack = st.return_stack := by
  simp only [do_input, Bind.bind, Except.bind, Pure.pure, Except.pure] at h
  repeat' split at h
  all_goals try cases h
  all_goals first
    | (have h2 := set_result_tr h
       exact ⟨h2.1, h2.2⟩)
    | (have h1 := do_print_tr (by assumption)
       have h2 := set_result_tr h
       exact ⟨h2.1.trans h1.1, h2.2.trans h1.2⟩)

theorem do_strtoint_tr {st st' : St} {args : List String}
    (h : do_strtoint st args = .ok st') :
    st'.terminate = st.terminate ∧ st'.return_stack = st.return_stack := by
  simp only [do_strtoint, Bind.bind, Except.bind] at h
  repeat' split at h
  all_goals try cases h
  all_goals
    (have h1 := get_value_tr (by assumption)
     have h2 := set_result_tr h
     exact ⟨h2.1.trans h1.1, h2.2.trans h1.2⟩)

theorem do_funccall_term {st st' : St} {args : List String}
    (h : do_funccall st args = .ok st') :
    st'.terminate = st.terminate := by
  cases args with
  | nil =>
    simp only [do_funccall] at h
    cases h
  | cons name rest =>
    rw [do_funccall_cons] at h
    simp only [Bind.bind, Except.bind] at h
    repeat' split at h
    all_goals try cases h
    all_goals first
      | (have h2 := do_print_tr (by assumption); exact h2.1)
      | (have h2 := do_input_tr (by assumption); exact h2.1)
      | (have h2 := do_strtoint_tr (by assumption); exact h2.1)
      | (have h2 := create_new_environment_tr (by assumption); exact h2.1)

theorem do_assign_tr {st st' : St} {toks : List String}
    (h : do_assign st toks = .ok st') :
    st'.terminate = st.terminate ∧ st'.return_stack = st.return_stack := by
  simp only [do_assign, Bind.bind, Except.bind, Pure.pure, Except.pure] at h
  repeat' split at h
  all_goals try cases h
  all_goals
    (have h0 := eval_expression_tr (by assumption)
     have h3 := set_value_tr (by assumption)
     have h1 := get_value_tr (by assumption)
     exact ⟨(h3.1.trans h1.1).trans h0.1, (h3.2.trans h1.2).trans h0.2⟩)

theorem do_if_tr {st st' : St} {args : List String}
    (h : do_if st args = .ok st') :
    st'.terminate = st.terminate ∧ st'.return_stack = st.return_stack := by
  simp only [do_if, Bind.bind, Except.bind] at h
  repeat' split at h
  all_goals try cases h
  all_goals
    (have h0 := eval_expression_tr (by assumption)
     exact ⟨h0.1, h0.2⟩)

theorem do_endif_tr {st st' : St}
    (h : do_endif st = .ok st') :
    st'.terminate = st.terminate ∧ st'.return_stack = st.return_stack := by
  simp only [do_endif] at h
  repeat' split at h
  all_goals try cases h
  all_goals exact ⟨rfl, rfl⟩

theorem do_else_tr {st st' : St}
    (h : do_else st = .ok st') :
    st'.terminate = st.terminate ∧ st'.return_stack = st.return_stack := by
  simp only [do_else, Bind.bind, Except.bind, Pure.pure, Except.pure] at h
  repeat' split at h
  all_goals try cases h
  all_goals exact ⟨rfl, rfl⟩

theorem do_while_tr {st st' : St} {args : List String}
    (h : do_while st args = .ok st') :
    st'.terminate = st.terminate ∧ st'.return_stack = st.return_stack := by
  simp only [do_while, Bind.bind, Except.bind] at h
  repeat' split at h
  all_goals try cases h
  all_goals
    (have h0 := eval_expression_tr (by assumption)
     exact ⟨h0.1, h0.2⟩)

theorem do_endwhile_tr {st st' : St}
    (h : do_endwhile st = .ok st') :
    st'.terminate = st.terminate ∧ st'.return_stack = st.return_stack := by
  simp only [do_endwhile, Bind.bind, Except.bind, Pure.pure, Except.pure] at h
  repeat' split at h
  all_goals try cases h
  all_goals exact ⟨rfl, rfl⟩

theorem define_one_var_tr {st st' : St} {tk fn vn : String}
    (h : define_one_var st tk fn vn = .ok st') :
    st'.terminate = st.terminate ∧ st'.return_stack = st.return_stack := by
  simp only [define_one_var, Bind.bind, Except.bind, Pure.pure, Except.pure] at h
  repeat' split at h
  all_goals try cases h
  all_goals
    (have h1 := (deepcopy_tr _).1 _ _ (by assumption)
     exact ⟨h1.1, h1.2⟩)

theorem define_vars_tr : ∀ (names : List String) (st : St) (tk fn : String) {st' : St},
    define_vars st tk fn names = .ok st' →
    st'.terminate = st.terminate ∧ st'.return_stack = st.return_stack := by
  intro names
  induction names with
  | nil =>
    intro st tk fn st' h
    simp only [define_vars] at h
    cases h
    exact ⟨rfl, rfl⟩
  | cons n rest ih =>
    intro st tk fn st' h
    simp only [define_vars, Bind.bind, Except.bind] at h
    repeat' split at h
    all_goals try cases h
    all_goals
      (have h1 := define_one_var_tr (by assumption)
       have h2 := ih _ _ _ h
       exact ⟨h2.1.trans h1.1, h2.2.trans h1.2⟩)

theorem do_define_var_tr {st st' : St} {args : List String}
    (h : do_define_var st args = .ok st') :
    st'.terminate = st.terminate ∧ st'.return_stack = st.return_stack := by
  simp only [do_define_var, Bind.bind, Except.bind] at h
  repeat' split at h
  all_goals try cases h
  all_goals
    (have h1 := define_vars_tr _ _ _ _ (by assumption)
     exact ⟨h1.1, h1.2⟩)

theorem set_lambda_tr {st st' : St} {args : List String} {ip : Int}
    {caps : List (String × Nat)}
    (h : set_lambda st args ip caps = .ok st') :
    st'.terminate = st.terminate ∧ st'.return_stack = st.return_stack := by
  simp only [set_lambda] at h
  repeat' split at h
  all_goals try cases h
  all_goals exact ⟨rfl, rfl⟩

theorem do_lambda_tr {st st' : St} {args : List String}
    (h : do_lambda st args = .ok st') :
    st'.terminate = st.terminate ∧ st'.return_stack = st.return_stack := by
  simp only [do_lambda, Bind.bind, Except.bind] at h
  repeat' split at h
  all_goals try cases h
  all_goals
    (have h1 := set_lambda_tr (by assumption)
     have h2 := set_result_tr (by assumption)
     exact ⟨h2.1.trans h1.1, h2.2.trans h1.2⟩)

theorem endlambda_term {st st' : St} {rv : Option Nat}
    (h : endlambda st rv = .ok st') :
    st'.terminate = st.terminate := by
  simp only [endlambda, Bind.bind, Except.bind, Pure.pure, Except.pure] at h
  repeat' split at h
  all_goals try cases h
  all_goals first
    | rfl
    | (have h2 := set_result_tr (by assumption); exact h2.1)

theorem endfunc_char {st st' : St} {rv : Option Nat}
    (h : endfunc st rv = .ok st') :
    (st.return_stack = [] ∧ st' = {st with terminate := true}) ∨
    st'.terminate = st.terminate := by
  simp only [endfunc, Bind.bind, Except.bind, Pure.pure, Except.pure] at h
  repeat' split at h
  all_goals try cases h
  all_goals first
    | (left; exact ⟨by assumption, rfl⟩)
    | (right; rfl)
    | (right
       have h2 := set_result_tr (by assumption)
       exact h2.1)

theorem lambda_or_func_char {st st' : St} {rv : Option Nat}
    (h : lambda_or_func st rv = .ok st') :
    (st.return_stack = [] ∧ st'.terminate = true) ∨
    st'.terminate = st.terminate := by
  simp only [lambda_or_func, Bind.bind, Except.bind] at h
  repeat' split at h
  all_goals try cases h
  all_goals first
    | (rcases endfunc_char (by assumption) with ⟨he, hst⟩ | hpres
       · exact Or.inl ⟨he, by rw [hst]⟩
       · exact Or.inr hpres)
    | exact Or.inr (endlambda_term (by assumption))

theorem do_return_char {st st' : St} {args : List String}
    (h : do_return st args = .ok st') :
    (st.return_stack = [] ∧ st'.terminate = true) ∨
    st'.terminate = st.terminate := by
  simp only [do_return, Bind.bind, Except.bind] at h
  repeat' split at h
  all_goals try cases h
  all_goals first
    | (rcases lambda_or_func_char h with ⟨he, ht⟩ | hpres
       · exact Or.inl ⟨he, ht⟩
       · exact Or.inr hpres)
    | (have h0 := eval_expression_tr (by assumption)
       rcases lambda_or_func_char h with ⟨he, ht⟩ | hpres
       · exact Or.inl ⟨h0.2 ▸ he, ht⟩
       · exact Or.inr (hpres.trans h0.1))


end Interp

namespace Interp

set_option maxHeartbeats 1000000 in
theorem step_term_char {st st' : St} (h : step st = .ok st') :
    st'.terminate = st.terminate ∨
    (st.return_stack = [] ∧ st'.terminate = true ∧
      ∃ toks, pyIdx st.prog st.ip = some toks ∧
        (toks.head? = some ENDFUNC_DEF ∨ toks.head? = some RETURN_DEF)) := by
  simp only [step] at h
  repeat' split at h
  all_goals try cases h
  · exact Or.inl rfl
  · rename_i x r piece more heq
    by_cases c1 : piece = ASSIGN_DEF
    · rw [if_pos c1] at h
      exact Or.inl (do_assign_tr h).1
    rw [if_neg c1] at h
    by_cases c2 : piece = FUNCCALL_DEF
    · rw [if_pos c2] at h
      exact Or.inl (do_funccall_term h)
    rw [if_neg c2] at h
    by_cases c3 : piece = ENDFUNC_DEF
    · rw [if_pos c3] at h
      rcases endfunc_char h with ⟨he, hst⟩ | hpres
      · exact Or.inr ⟨he, by rw [hst], ⟨_, heq, Or.inl (by rw [List.head?_cons, c3])⟩⟩
      · exact Or.inl hpres
    rw [if_neg c3] at h
    by_cases c4 : piece = IF_DEF
    · rw [if_pos c4] at h
      exact Or.inl (do_if_tr h).1
    rw [if_neg c4] at h
    by_cases c5 : piece = ELSE_DEF
    · rw [if_pos c5] at h
      exact Or.inl (do_else_tr h).1
    rw [if_neg c5] at h
    by_cases c6 : piece = ENDIF_DEF
    · rw [if_pos c6] at h
      exact Or.inl (do_endif_tr h).1
    rw [if_neg c6] at h
    by_cases c7 : piece = RETURN_DEF
    · rw [if_pos c7] at h
      rcases do_return_char h with ⟨he, ht⟩ | hpres
      · exact Or.inr ⟨he, ht, ⟨_, heq, Or.inr (by rw [List.head?_cons, c7])⟩⟩
      · exact Or.inl hpres
    rw [if_neg c7] at h
    by_cases c8 : piece = WHILE_DEF
    · rw [if_pos c8] at h
      exact Or.inl (do_while_tr h).1
    rw [if_neg c8] at h
    by_cases c9 : piece = ENDWHILE_DEF
    · rw [if_pos c9] at h
      exact Or.inl (do_endwhile_tr h).1
    rw [if_neg c9] at h
    by_cases c10 : piece = VAR_DEF
    · rw [if_pos c10] at h
      exact Or.inl (do_define_var_tr h).1
    rw [if_neg c10] at h
    by_cases c11 : piece = LAMBDA_DEF
    · rw [if_pos c11] at h
      exact Or.inl (do_lambda_tr h).1
    rw [if_neg c11] at h
    by_cases c12 : piece = ENDLAMBDA_DEF
    · rw [if_pos c12] at h
      exact Or.inl (endlambda_term h)
    rw [if_neg c12] at h
    cases h

theorem endfunc_empty_sets {st : St} (h : st.return_stack = []) :
    endfunc st none = .ok {st with terminate := true} := by
  unfold endfunc
  rw [h]

theorem runFor_stops {st : St} (fuel : Nat) (h : st.terminate = true) :
    runFor (fuel + 1) st = .ok st := by
  simp [runFor, h]

end Interp

namespace Interp

def C9_cex_state : St :=
  { prog := [["func", "main", "void"], ["if", "False"], ["endfunc"], ["endif"]],
    indents := [0, 0, 0, 0], ip := 1, return_stack := [], terminate := false,
    env := [[[]]], store := [], objHeap := [[]], funcs := [], outLines := [],
    inLines := [], retTypeAt := fun _ => VOID_DEF }

/-- C9 counterexample: in the four-line program `func main void / if False /
endfunc / endif` with the instruction pointer on the `if`, the false branch's
forward scan skips the dedented `endfunc` (no indentation check, cf. C7) and
matches the trailing `endif`, so one step moves the instruction pointer to 4 —
past the end of the 4-line program — with the termination flag still clear;
the next step is an IndexError, so the pointer does not remain a valid
statement index until the flag is set. -/
theorem C9_counterexample :
    result_ip (step C9_cex_state) = some 4 ∧
    result_terminate (step C9_cex_state) = some false ∧
    C9_cex_state.prog.length = 4 ∧
    (∃ st1, step C9_cex_state = .ok st1 ∧ pyIdx st1.prog st1.ip = none ∧
      step st1 = .error (.fault .indexError)) := by
  refine ⟨rfl, rfl, rfl, ⟨_, rfl, rfl, rfl⟩⟩

/-- C9 (amended): (1) a successful step either preserves the termination flag
or sets it with the call stack empty and the current statement an `endfunc` or
`return` — the flag is set only by the outermost return, explicit or
fall-through; (2) `_endfunc` with an empty call stack sets exactly the flag and
nothing else; (3) the run loop stops as soon as the flag is set.  The original
claim's further assertion that the instruction pointer stays a valid statement
index until then is refuted by `C9_cex_state`. -/
theorem C9_termination :
    (∀ st st' : St, step st = .ok st' →
      st'.terminate = st.terminate ∨
      (st.return_stack = [] ∧ st'.terminate = true ∧
        ∃ toks, pyIdx st.prog st.ip = some toks ∧
          (toks.head? = some ENDFUNC_DEF ∨ toks.head? = some RETURN_DEF))) ∧
    (∀ st : St, st.return_stack = [] →
      endfunc st none = .ok {st with terminate := true}) ∧
    (∀ (st : St) (fuel : Nat), st.terminate = true → runFor (fuel + 1) st = .ok st) :=
  ⟨fun _ _ h => step_term_char h,
   fun _ h => endfunc_empty_sets h,
   fun _ fuel h => runFor_stops fuel h⟩

def C9_wit_state : St :=
  { prog := [["endfunc"]], indents := [0], ip := 0, return_stack := [],
    terminate := false, env := [[[]]], store := [], objHeap := [[]], funcs := [],
    outLines := [], inLines := [], retTypeAt := fun _ => VOID_DEF }

/-- Witness for C9: the one-line program `endfunc` with an empty call stack —
the step sets the termination flag via the endfunc path, and the run loop then
stops. -/
theorem C9_termination_witness :
    (({C9_wit_state with terminate := true} : St).terminate = C9_wit_state.terminate ∨
      (C9_wit_state.return_stack = [] ∧
       ({C9_wit_state with terminate := true} : St).terminate = true ∧
       ∃ toks, pyIdx C9_wit_state.prog C9_wit_state.ip = some toks ∧
         (toks.head? = some ENDFUNC_DEF ∨ toks.head? = some RETURN_DEF))) ∧
    endfunc C9_wit_state none = .ok {C9_wit_state with terminate := true} ∧
    runFor 3 {C9_wit_state with terminate := true} =
      .ok {C9_wit_state with terminate := true} :=
  ⟨C9_termination.1 C9_wit_state {C9_wit_state with terminate := true} rfl,
   C9_termination.2.1 C9_wit_state rfl,
   C9_termination.2.2 {C9_wit_state with terminate := true} 2 rfl⟩

end Interp
